import Mathlib

/-!
# Scene bookkeeping of `MWRender::Objects` (apps/openmw/mwrender/objects.cpp)

A shallow embedding of the object registry of the renderer: the five maps of
`Objects` (cell parent nodes, the two static-geometry maps, cell bounds, live
animation handles), the static counter `uniqueID`, and the part of the outside
world the registry reads and writes (the scene graph and the base-node slot of
every object reference).

Conventions of the embedding:
* pointers (`CellStore*`, `SceneNode*`, the reference behind a `Ptr`) are `Nat`
  identities; the null pointer is `none`;
* a `std::map` is an association list with at most one entry per key;
* `float` quantities that are only stored or compared (positions, rotations,
  box corners) are carried as `Int`; the scale of an object, which enters the
  float arithmetic of `insertMesh`, is carried as a dyadic value `OgreReal`, and
  that arithmetic itself (the size of the object and its comparison with the
  threshold) is a parameter of the environment, so no rounding is assumed.
-/

namespace MWRender

/-! ## std::map with pointer keys -/

/-- The lookup `m.find(k)`: `none` stands for `m.end()`. -/
def mapFind {V : Type} (k : Nat) : List (Nat × V) → Option V
  | [] => none
  | e :: rest => if e.1 = k then some e.2 else mapFind k rest

/-- The assignment `m[k] = v`: overwrites the entry of `k`, or adds one. -/
def mapSet {V : Type} (k : Nat) (v : V) : List (Nat × V) → List (Nat × V)
  | [] => [(k, v)]
  | e :: rest => if e.1 = k then (k, v) :: rest else e :: mapSet k v rest

/-- The removal `m.erase(k)`. -/
def mapErase {V : Type} (k : Nat) (m : List (Nat × V)) : List (Nat × V) :=
  m.filter (fun e => decide (e.1 ≠ k))

/-! ## Ogre vectors, reals and boxes -/

/-- Modelled from the spec: an `Ogre::Vector3` (Ogre is not part of the excerpt), a
triple of coordinates. -/
structure Vector3 where
  x : Int
  y : Int
  z : Int
deriving DecidableEq, Repr

/-- Modelled from the spec: an `Ogre::Real` (a single-precision `float`) that the
registry stores and hands on, given as `mantissa * 2 ^ exponent`; every finite
float, whole or fractional, is of this form. -/
structure OgreReal where
  mantissa : Int
  exponent : Int
deriving DecidableEq, Repr

/-- Modelled from the spec: a triple of `Ogre::Real`, the scale of a scene node. -/
structure RealVector3 where
  x : OgreReal
  y : OgreReal
  z : OgreReal
deriving DecidableEq, Repr

/-- Modelled from the spec: an `Ogre::AxisAlignedBox` (Ogre is not part of the
excerpt), the axis-aligned bounding volume: its extent tag (null, finite,
infinite) and, when finite, its two corners. -/
inductive AxisAlignedBox where
  | null
  | finite (mMinimum mMaximum : Vector3)
  | infinite
deriving DecidableEq, Repr

/-- Modelled from the spec: the constant `Ogre::AxisAlignedBox::BOX_NULL`, the
empty/null volume, which is also the default-constructed box. -/
def AxisAlignedBox.BOX_NULL : AxisAlignedBox := .null

/-- Modelled from the spec: `Ogre::Vector3::makeFloor`, the component-wise minimum
(`if (cmp.x < x) x = cmp.x`, and so on). -/
def Vector3.makeFloor (v cmp : Vector3) : Vector3 :=
  ⟨if cmp.x < v.x then cmp.x else v.x, if cmp.y < v.y then cmp.y else v.y,
   if cmp.z < v.z then cmp.z else v.z⟩

/-- Modelled from the spec: `Ogre::Vector3::makeCeil`, the component-wise maximum
(`if (cmp.x > x) x = cmp.x`, and so on). -/
def Vector3.makeCeil (v cmp : Vector3) : Vector3 :=
  ⟨if cmp.x > v.x then cmp.x else v.x, if cmp.y > v.y then cmp.y else v.y,
   if cmp.z > v.z then cmp.z else v.z⟩

/-- Modelled from the spec: `Ogre::AxisAlignedBox::merge` (Ogre is not part of the
excerpt), the incremental merge of bounding volumes: nothing happens when `rhs`
is null or `this` is infinite, an infinite `rhs` makes `this` infinite, a null
`this` takes the extents of `rhs`, and two finite boxes are merged corner by
corner with `makeFloor` and `makeCeil`. -/
def AxisAlignedBox.merge (this rhs : AxisAlignedBox) : AxisAlignedBox :=
  match this, rhs with
  | b, .null => b
  | .infinite, _ => .infinite
  | _, .infinite => .infinite
  | .null, .finite lo hi => .finite lo hi
  | .finite lo hi, .finite rlo rhi => .finite (lo.makeFloor rlo) (hi.makeCeil rhi)

/-! ## The scene graph -/

/-- The three unit axes used to build the orientation. -/
inductive Axis where
  | UNIT_X
  | UNIT_Y
  | UNIT_Z
deriving DecidableEq, Repr

/-- Modelled from the spec: an `Ogre::SceneNode` (Ogre is not part of the excerpt), a
node of the scene graph with its parent and its transform.  The orientation is
kept as the product of axis rotations it was built from, left factor first. -/
structure SceneNode where
  id : Nat
  parent : Option Nat
  position : Vector3
  scale : RealVector3
  orientation : List (Int × Axis)
deriving DecidableEq, Repr

/-- Modelled from the spec: the scene graph provider (`Ogre::SceneManager`): the
nodes that exist, and the next fresh identity; an identity is never handed out
twice. -/
structure SceneManager where
  nodes : List SceneNode
  nextId : Nat
deriving DecidableEq, Repr

/-- The node behind a pointer, if it still exists. -/
def SceneManager.getNode (sc : SceneManager) (n : Nat) : Option SceneNode :=
  sc.nodes.find? (fun node => decide (node.id = n))

/-- Modelled from the spec: the call `parent->createChildSceneNode()`: a fresh
node with the default transform under `parent`; returns its pointer. -/
def SceneManager.createChildSceneNode (sc : SceneManager) (parent : Nat) : Nat × SceneManager :=
  (sc.nextId,
   { nodes := sc.nodes ++ [⟨sc.nextId, some parent, ⟨0, 0, 0⟩, ⟨⟨1, 0⟩, ⟨1, 0⟩, ⟨1, 0⟩⟩, []⟩],
     nextId := sc.nextId + 1 })

/-- Applies a setter to the node `n`. -/
def SceneManager.modify (sc : SceneManager) (n : Nat) (f : SceneNode → SceneNode) : SceneManager :=
  { sc with nodes := sc.nodes.map (fun node => if node.id = n then f node else node) }

/-- Modelled from the spec: the call `destroySceneNode(n)`: the node goes away
and its children are left without a parent; nothing happens when the node does
not exist. -/
def SceneManager.destroySceneNode (sc : SceneManager) (n : Nat) : SceneManager :=
  let kept := sc.nodes.filter (fun node => decide (node.id ≠ n))
  { sc with
    nodes := kept.map (fun node => if node.parent = some n then { node with parent := none } else node) }

/-- The identities of the proper descendants of `root` found within `k` rounds. -/
def descendantsWithin (nodes : List SceneNode) (root : Nat) : Nat → List Nat
  | 0 => []
  | k + 1 =>
    let found := descendantsWithin nodes root k
    (nodes.filter (fun node =>
      match node.parent with
      | some p => decide (p = root) || found.contains p
      | none => false)).map (fun node => node.id)

/-- Modelled from the spec: the call `n->removeAndDestroyAllChildren()`: every
proper descendant of `n` goes away. -/
def SceneManager.removeAndDestroyAllChildren (sc : SceneManager) (n : Nat) : SceneManager :=
  let gone := descendantsWithin sc.nodes n sc.nodes.length
  { sc with nodes := sc.nodes.filter (fun node => !gone.contains node.id) }

/-- Modelled from the spec: the call `parent->addChild(child)`, which reparents
`child` under `parent`. -/
def SceneManager.addChild (sc : SceneManager) (parent child : Nat) : SceneManager :=
  sc.modify child (fun node => { node with parent := some parent })

/-! ## Objects, handles and batches -/

/-- Modelled from the spec: an `MWWorld::Ptr` (mwworld/ptr.hpp is not part of the
excerpt), the opaque identifier of a placed object: the reference it points at
(`ref`, the identity that orders the keys of the live-objects map), its owning
cell, and the data of the reference that the registry reads (type name,
position, rotation, scale). -/
structure Ptr where
  ref : Nat
  cell : Nat
  typeName : String
  pos : Vector3
  rot : Vector3
  scale : OgreReal
deriving DecidableEq, Repr

/-- The test `name.find("Door") != std::string::npos`. -/
def hasDoor (name : String) : Bool := decide ("Door".toList <:+: name.toList)

/-- A call the registry forwards to an animation handle. -/
inductive AnimCall where
  | addLight
  | enableLights (enabled : Bool)
  | runAnimation (dt : Int)
deriving DecidableEq, Repr

/-- Modelled from the spec: the per-object animation handle `ObjectAnimation`
(animation.hpp is not part of the excerpt).  It is built from an object and a
mesh and is opaque to the registry, so it is kept as the calls it received. -/
structure ObjectAnimation where
  ptr : Ptr
  mesh : String
  calls : List AnimCall
deriving DecidableEq, Repr

/-- Modelled from the spec: the visibility flags of renderconst.hpp (not part of
the excerpt) that the registry assigns, one for normal and one for small
statics. -/
inductive VisibilityFlags where
  | RV_Statics
  | RV_StaticsSmall
deriving DecidableEq, Repr

/-- Modelled from the spec: the render queue group of renderconst.hpp (not part of
the excerpt) that the registry assigns. -/
inductive RenderQueueGroups where
  | RQG_Main
deriving DecidableEq, Repr

/-- Modelled from the spec: an `Ogre::StaticGeometry` (Ogre is not part of the
excerpt), a batched-geometry group: what the registry has set on it (`none`:
never set), the objects folded into it by `fillBatch`, and whether it is
built. -/
structure StaticGeometry where
  name : String
  renderingDistance : Option Int
  regionDimensions : Option Vector3
  visibilityFlags : Option VisibilityFlags
  castShadows : Option Bool
  renderQueueGroup : Option RenderQueueGroups
  queued : List (Nat × String)
  built : Bool
deriving DecidableEq, Repr

/-- Modelled from the spec: the call `createStaticGeometry(name)`, a new empty
group. -/
def createStaticGeometry (name : String) : StaticGeometry :=
  ⟨name, none, none, none, none, none, [], false⟩

/-- The parts of the surroundings that `insertMesh` reads, taken as parameters:
the four values read through `Settings::Manager`, the two `typeid` names the
type name is compared with, the two queries on a freshly built animation
handle (`getWorldBounds` and `canBatch`), and the float arithmetic of
objects.cpp:80-84: `sizeBelow bounds scale threshold` is the outcome of
`size < threshold`, where `size` is the largest component of
`bounds.getSize() * scale`, computed in single precision, and the `int`
threshold is converted to `float` for the comparison. -/
structure Env where
  sizeBelow : AxisAlignedBox → RealVector3 → Int → Bool
  smallObjectSize : Int
  limitSmallObjectDistance : Bool
  smallObjectDistance : Int
  useStaticGeometry : Bool
  staticTypeName : String
  lightTypeName : String
  getWorldBounds : Ptr → String → AxisAlignedBox
  canBatch : Ptr → String → Bool

/-! ### The live-objects map, keyed by `Ptr` -/

/-- The lookup `mObjects.find(ptr)`. -/
def objFind (ptr : Ptr) : List (Ptr × ObjectAnimation) → Option ObjectAnimation
  | [] => none
  | e :: rest => if e.1.ref = ptr.ref then some e.2 else objFind ptr rest

/-- The call `mObjects.insert(std::make_pair(ptr, anim))`, which keeps an
entry that is already there. -/
def objInsert (ptr : Ptr) (anim : ObjectAnimation) (m : List (Ptr × ObjectAnimation)) :
    List (Ptr × ObjectAnimation) :=
  match objFind ptr m with
  | some _ => m
  | none => m ++ [(ptr, anim)]

/-- The call `mObjects.erase(iter)` for the entry of `ptr`. -/
def objErase (ptr : Ptr) (m : List (Ptr × ObjectAnimation)) : List (Ptr × ObjectAnimation) :=
  m.filter (fun e => decide (e.1.ref ≠ ptr.ref))

/-- The number of entries of the live-objects map that belong to `ptr`. -/
def objCount (ptr : Ptr) (m : List (Ptr × ObjectAnimation)) : Nat :=
  m.countP (fun e => decide (e.1.ref = ptr.ref))

/-! ## The registry -/

/-- The registry `Objects` (its five maps, `mRootNode` and the static
`uniqueID`) together with the world it acts on: the scene graph and the
base-node slot of every reference (`getRefData().getBaseNode()`, null when
absent). -/
structure Objects where
  mRootNode : Nat
  mCellSceneNodes : List (Nat × Nat)
  mStaticGeometry : List (Nat × StaticGeometry)
  mStaticGeometrySmall : List (Nat × StaticGeometry)
  mBounds : List (Nat × AxisAlignedBox)
  mObjects : List (Ptr × ObjectAnimation)
  uniqueID : Nat
  scene : SceneManager
  baseNode : List (Nat × Nat)
deriving DecidableEq, Repr

/-- The registry right after construction and `setRootNode`: empty maps, and a
scene that holds the root node only. -/
def Objects.empty : Objects :=
  { mRootNode := 0, mCellSceneNodes := [], mStaticGeometry := [], mStaticGeometrySmall := [],
    mBounds := [], mObjects := [], uniqueID := 0,
    scene := ⟨[⟨0, none, ⟨0, 0, 0⟩, ⟨⟨1, 0⟩, ⟨1, 0⟩, ⟨1, 0⟩⟩, []⟩], 1⟩, baseNode := [] }

/-- The method `Objects::setRootNode`. -/
def setRootNode (root : Nat) (s : Objects) : Objects := { s with mRootNode := root }

/-- The first half of `insertBegin`: the parent node of the cell, created under
the root when the cell has none. -/
def cellNode (cell : Nat) (s : Objects) : Nat × Objects :=
  match mapFind cell s.mCellSceneNodes with
  | none =>
    let r := s.scene.createChildSceneNode s.mRootNode
    (r.1, { s with scene := r.2, mCellSceneNodes := mapSet cell r.1 s.mCellSceneNodes })
  | some cellnode => (cellnode, s)

/-- The method `Objects::insertBegin`. -/
def insertBegin (ptr : Ptr) (s : Objects) : Objects :=
  let c := cellNode ptr.cell s
  let r := c.2.scene.createChildSceneNode c.1
  let insert := r.1
  let sc1 := r.2.modify insert (fun node => { node with position := ptr.pos })
  let sc2 := sc1.modify insert (fun node => { node with scale := ⟨ptr.scale, ptr.scale, ptr.scale⟩ })
  let sc3 := sc2.modify insert (fun node =>
    { node with orientation := [(-ptr.rot.x, .UNIT_X), (-ptr.rot.y, .UNIT_Y), (-ptr.rot.z, .UNIT_Z)] })
  { c.2 with scene := sc3, baseNode := mapSet ptr.ref insert c.2.baseNode }

/-- The classification of `insertMesh` (objects.cpp:79-88): `small` is
`size < "small object size"` (the float comparison of the environment, on the
world bounds and the scale of the base node) and `"limit small object
distance"`, and is reset to false when the type name contains `Door`. -/
def isSmall (env : Env) (ptr : Ptr) (bounds : AxisAlignedBox) (scale : RealVector3) : Bool :=
  let small := env.sizeBelow bounds scale env.smallObjectSize && env.limitSmallObjectDistance
  if hasDoor ptr.typeName then false else small

/-- The condition under which `insertMesh` folds the object into a batch: the
type is `ESM::Static`, `"use static geometry"` is set and `anim->canBatch()`. -/
def folds (env : Env) (ptr : Ptr) (mesh : String) : Bool :=
  decide (ptr.typeName = env.staticTypeName) && env.useStaticGeometry && env.canBatch ptr mesh

/-- The tail of the batching branch of `insertMesh`, applied to the group `sg`:
region size, visibility flag, shadows, render queue, then `anim->fillBatch(sg)`. -/
def configureBatch (small : Bool) (ptr : Ptr) (mesh : String) (sg : StaticGeometry) :
    StaticGeometry :=
  { sg with
    regionDimensions := some ⟨2500, 2500, 2500⟩
    visibilityFlags := some (if small then .RV_StaticsSmall else .RV_Statics)
    castShadows := some true
    renderQueueGroup := some .RQG_Main
    queued := sg.queued ++ [(ptr.ref, mesh)] }

/-- The method `Objects::insertMesh`.  It returns `none` when the assertion on
the base node fails, or when the base node no longer exists (its scale cannot
be read). -/
def insertMesh (env : Env) (ptr : Ptr) (mesh : String) (s : Objects) : Option Objects :=
  match mapFind ptr.ref s.baseNode with
  | none => none
  | some insert =>
    match s.scene.getNode insert with
    | none => none
    | some node =>
      let anim : ObjectAnimation := ⟨ptr, mesh, []⟩
      let bounds := env.getWorldBounds ptr mesh
      let small := isSmall env ptr bounds node.scale
      let bounds0 :=
        if (mapFind ptr.cell s.mBounds).isNone then mapSet ptr.cell .BOX_NULL s.mBounds
        else s.mBounds
      let merged := ((mapFind ptr.cell bounds0).getD .BOX_NULL).merge bounds
      let s1 := { s with mBounds := mapSet ptr.cell merged bounds0 }
      let anim1 : ObjectAnimation :=
        if ptr.typeName = env.lightTypeName then { anim with calls := anim.calls ++ [.addLight] }
        else anim
      if folds env ptr mesh then
        if small then
          match mapFind ptr.cell s1.mStaticGeometrySmall with
          | none =>
            let uid := s1.uniqueID + 1
            let sg := { createStaticGeometry ("sg" ++ toString uid) with
                        renderingDistance := some env.smallObjectDistance }
            some { s1 with
              uniqueID := uid
              mStaticGeometrySmall :=
                mapSet ptr.cell (configureBatch small ptr mesh sg) s1.mStaticGeometrySmall }
          | some sg =>
            some { s1 with
              mStaticGeometrySmall :=
                mapSet ptr.cell (configureBatch small ptr mesh sg) s1.mStaticGeometrySmall }
        else
          match mapFind ptr.cell s1.mStaticGeometry with
          | none =>
            let uid := s1.uniqueID + 1
            let sg := createStaticGeometry ("sg" ++ toString uid)
            some { s1 with
              uniqueID := uid
              mStaticGeometry :=
                mapSet ptr.cell (configureBatch small ptr mesh sg) s1.mStaticGeometry }
          | some sg =>
            some { s1 with
              mStaticGeometry :=
                mapSet ptr.cell (configureBatch small ptr mesh sg) s1.mStaticGeometry }
      else
        some { s1 with mObjects := objInsert ptr anim1 s1.mObjects }

/-- The method `Objects::deleteObject`, with its return value. -/
def deleteObject (ptr : Ptr) (s : Objects) : Bool × Objects :=
  match mapFind ptr.ref s.baseNode with
  | none => (true, s)
  | some base =>
    match objFind ptr s.mObjects with
    | some _ =>
      (true, { s with
        mObjects := objErase ptr s.mObjects
        scene := s.scene.destroySceneNode base
        baseNode := mapErase ptr.ref s.baseNode })
    | none => (false, s)

/-- The method `Objects::removeCell`. -/
def removeCell (store : Nat) (s : Objects) : Objects :=
  let s1 := { s with mObjects := s.mObjects.filter (fun e => decide (e.1.cell ≠ store)) }
  let s2 :=
    match mapFind store s1.mStaticGeometry with
    | some _ => { s1 with mStaticGeometry := mapErase store s1.mStaticGeometry }
    | none => s1
  let s3 :=
    match mapFind store s2.mStaticGeometrySmall with
    | some _ => { s2 with mStaticGeometrySmall := mapErase store s2.mStaticGeometrySmall }
    | none => s2
  let s4 := { s3 with mBounds := mapErase store s3.mBounds }
  match mapFind store s4.mCellSceneNodes with
  | some cell =>
    { s4 with
      scene := (s4.scene.removeAndDestroyAllChildren cell).destroySceneNode cell
      mCellSceneNodes := mapErase store s4.mCellSceneNodes }
  | none => s4

/-- The method `Objects::buildStaticGeometry`. -/
def buildStaticGeometry (cell : Nat) (s : Objects) : Objects :=
  let s1 :=
    match mapFind cell s.mStaticGeometry with
    | some sg => { s with mStaticGeometry := mapSet cell { sg with built := true } s.mStaticGeometry }
    | none => s
  match mapFind cell s1.mStaticGeometrySmall with
  | some sg =>
    { s1 with mStaticGeometrySmall := mapSet cell { sg with built := true } s1.mStaticGeometrySmall }
  | none => s1

/-- The method `Objects::getDimensions` (the spec's `getBounds`): `mBounds[cell]`,
which also adds a default (null) entry for a cell that has none. -/
def getDimensions (cell : Nat) (s : Objects) : AxisAlignedBox × Objects :=
  match mapFind cell s.mBounds with
  | some box => (box, s)
  | none => (.BOX_NULL, { s with mBounds := mapSet cell .BOX_NULL s.mBounds })

/-- Forwards one call to every handle of the live-objects map, in map order. -/
def forwardAll (call : AnimCall) (s : Objects) : Objects :=
  { s with mObjects := s.mObjects.map (fun e => (e.1, { e.2 with calls := e.2.calls ++ [call] })) }

/-- The method `Objects::enableLights`. -/
def enableLights (s : Objects) : Objects := forwardAll (.enableLights true) s

/-- The method `Objects::disableLights`. -/
def disableLights (s : Objects) : Objects := forwardAll (.enableLights false) s

/-- The method `Objects::update`. -/
def update (dt : Int) (s : Objects) : Objects := forwardAll (.runAnimation dt) s

/-- The objects whose handle a per-object loop (`update`, `enableLights`,
`disableLights`) visits: the keys of the live-objects map. -/
def visited (s : Objects) : List Ptr := s.mObjects.map (fun e => e.1)

/-- The method `Objects::rebuildStaticGeometry`: `destroy()` then `build()` on
every group of both maps. -/
def rebuildStaticGeometry (s : Objects) : Objects :=
  let rebuild : Nat × StaticGeometry → Nat × StaticGeometry :=
    fun e => (e.1, { { e.2 with built := false } with built := true })
  { s with
    mStaticGeometry := s.mStaticGeometry.map rebuild
    mStaticGeometrySmall := s.mStaticGeometrySmall.map rebuild }

/-- The method `Objects::updateObjectCell`.  It returns `none` when the base
node of `cur` is null or no longer exists. -/
def updateObjectCell (_old cur : Ptr) (s : Objects) : Option Objects :=
  let c := cellNode cur.cell s
  match mapFind cur.ref c.2.baseNode with
  | none => none
  | some child =>
    match c.2.scene.getNode child with
    | none => none
    | some _ => some { c.2 with scene := c.2.scene.addChild c.1 child }

/-! ## Batched objects, histories and what the claims speak about -/

/-- The references folded into the groups of both static-geometry maps. -/
def foldedRefs (s : Objects) : List Nat :=
  ((s.mStaticGeometry ++ s.mStaticGeometrySmall).map
    (fun e => e.2.queued.map (fun q => q.1))).flatten

/-- Whether the object is folded into a static-geometry group that exists. -/
def isFolded (ptr : Ptr) (s : Objects) : Bool := (foldedRefs s).contains ptr.ref

/-- A call of one of the registry's methods. -/
inductive Op where
  | insertBegin (ptr : Ptr)
  | insertMesh (ptr : Ptr) (mesh : String)
  | deleteObject (ptr : Ptr)
  | removeCell (store : Nat)
  | buildStaticGeometry (cell : Nat)
  | getDimensions (cell : Nat)
  | enableLights
  | disableLights
  | update (dt : Int)
  | rebuildStaticGeometry
  | updateObjectCell (old cur : Ptr)
deriving DecidableEq, Repr

/-- The effect of a call on the registry. -/
def step (env : Env) : Op → Objects → Option Objects
  | .insertBegin ptr, s => some (insertBegin ptr s)
  | .insertMesh ptr mesh, s => insertMesh env ptr mesh s
  | .deleteObject ptr, s => some (deleteObject ptr s).2
  | .removeCell store, s => some (removeCell store s)
  | .buildStaticGeometry cell, s => some (buildStaticGeometry cell s)
  | .getDimensions cell, s => some (getDimensions cell s).2
  | .enableLights, s => some (enableLights s)
  | .disableLights, s => some (disableLights s)
  | .update dt, s => some (update dt s)
  | .rebuildStaticGeometry, s => some (rebuildStaticGeometry s)
  | .updateObjectCell old cur, s => updateObjectCell old cur s

/-- The state reached from the empty registry by a history of calls, the most
recent call first; `none` when a call does not return (`insertMesh` or
`updateObjectCell` on an object without a usable base node).  No other
condition is put on the calls. -/
def run (env : Env) : List Op → Option Objects
  | [] => some Objects.empty
  | op :: earlier =>
    match run env earlier with
    | none => none
    | some s => step env op s

/-- The state reached by a history in which every call, given the earlier calls
and the state it is made in, obeys the usage rule `allowed`; `none` when a
call breaks the rule or does not return. -/
def runWith (env : Env) (allowed : List Op → Objects → Op → Bool) : List Op → Option Objects
  | [] => some Objects.empty
  | op :: earlier =>
    match runWith env allowed earlier with
    | none => none
    | some s => if allowed earlier s op then step env op s else none

/-- Whether `ptr` itself was handed to `insertBegin` in the history and its cell
has not been removed since. -/
def begun (ptr : Ptr) : List Op → Bool
  | [] => false
  | .insertBegin q :: earlier => decide (q = ptr) || begun ptr earlier
  | .removeCell store :: earlier => decide (store ≠ ptr.cell) && begun ptr earlier
  | _ :: earlier => begun ptr earlier

/-- The usage rule "`insertMesh` follows `insertBegin`": `insertMesh` is called
only with a `Ptr` that was handed to `insertBegin` before and whose cell has
not been removed since.  Other calls are free. -/
def meshAfterBegin (earlier : List Op) (_s : Objects) : Op → Bool
  | .insertMesh ptr _ => begun ptr earlier
  | _ => true

/-- Whether the reference `r` was handed to `insertBegin` in the history and has
not been given a mesh since. -/
def awaitingMesh (r : Nat) : List Op → Bool
  | [] => false
  | .insertBegin q :: earlier => decide (q.ref = r) || awaitingMesh r earlier
  | .insertMesh q _ :: earlier => decide (q.ref ≠ r) && awaitingMesh r earlier
  | _ :: earlier => awaitingMesh r earlier

/-- The usage rule "one mesh per insertion": `insertBegin` is called only on an
object whose base node is null (not yet inserted), and `insertMesh` only on
an object that was handed to `insertBegin` and has not been given a mesh
since.  Other calls are free. -/
def oneMeshPerInsertion (earlier : List Op) (s : Objects) : Op → Bool
  | .insertBegin ptr => (mapFind ptr.ref s.baseNode).isNone
  | .insertMesh ptr _ => awaitingMesh ptr.ref earlier
  | _ => true

/-- Follows the spec's wording: the union of two boxes, the smallest
axis-aligned box that encloses both. -/
def boxUnion : AxisAlignedBox → AxisAlignedBox → AxisAlignedBox
  | .null, b => b
  | a, .null => a
  | .infinite, _ => .infinite
  | _, .infinite => .infinite
  | .finite lo hi, .finite lo2 hi2 =>
    .finite ⟨min lo.x lo2.x, min lo.y lo2.y, min lo.z lo2.z⟩
      ⟨max hi.x hi2.x, max hi.y hi2.y, max hi.z hi2.z⟩

/-- Follows the spec's wording: the union of a list of boxes. -/
def unionAll : List AxisAlignedBox → AxisAlignedBox
  | [] => .null
  | b :: rest => boxUnion b (unionAll rest)

/-- The box `a` lies inside the box `b`. -/
def AxisAlignedBox.inside : AxisAlignedBox → AxisAlignedBox → Prop
  | .null, _ => True
  | _, .infinite => True
  | .finite lo hi, .finite lo2 hi2 =>
    lo2.x ≤ lo.x ∧ lo2.y ≤ lo.y ∧ lo2.z ≤ lo.z ∧ hi.x ≤ hi2.x ∧ hi.y ≤ hi2.y ∧ hi.z ≤ hi2.z
  | _, _ => False

/-- The world bounds of the objects given a mesh in cell `c` since the last
`removeCell` of `c`, the most recent first. -/
def insertedSince (env : Env) (c : Nat) : List Op → List AxisAlignedBox
  | [] => []
  | .removeCell store :: earlier => if store = c then [] else insertedSince env c earlier
  | .insertMesh ptr mesh :: earlier =>
    if ptr.cell = c then env.getWorldBounds ptr mesh :: insertedSince env c earlier
    else insertedSince env c earlier
  | _ :: earlier => insertedSince env c earlier

/-- Whether, since the last `removeCell` of `c`, an object node was placed in
cell `c` (by `insertBegin`, or moved there by `updateObjectCell`). -/
def placedSince (c : Nat) : List Op → Bool
  | [] => false
  | .removeCell store :: earlier => if store = c then false else placedSince c earlier
  | .insertBegin ptr :: earlier => decide (ptr.cell = c) || placedSince c earlier
  | .updateObjectCell _ cur :: earlier => decide (cur.cell = c) || placedSince c earlier
  | _ :: earlier => placedSince c earlier

/-- Whether, since the last `removeCell` of `c`, an object node was placed in
cell `c` (by `insertBegin`, or moved there by `updateObjectCell`) or an object
of `c` was folded into a static-geometry group of `c`. -/
def createdSince (env : Env) (c : Nat) : List Op → Bool
  | [] => false
  | .removeCell store :: earlier => if store = c then false else createdSince env c earlier
  | .insertBegin ptr :: earlier => decide (ptr.cell = c) || createdSince env c earlier
  | .updateObjectCell _ cur :: earlier => decide (cur.cell = c) || createdSince env c earlier
  | .insertMesh ptr mesh :: earlier =>
    (decide (ptr.cell = c) && folds env ptr mesh) || createdSince env c earlier
  | _ :: earlier => createdSince env c earlier

/-- The references that have an entry in the live-objects map. -/
def liveRefs (s : Objects) : List Nat := s.mObjects.map (fun e => e.1.ref)

/-- The bookkeeping of live objects is consistent: a reference with a live
handle has a base node, and no reference has two live handles. -/
def LiveConsistent (s : Objects) : Prop :=
  (∀ r ∈ liveRefs s, mapFind r s.baseNode ≠ none) ∧ (liveRefs s).Nodup

/-- The bookkeeping of batched objects is consistent: a reference with a live
handle is in no batch, and a batched reference has a base node. -/
def FoldConsistent (s : Objects) : Prop :=
  (∀ r ∈ liveRefs s, r ∉ foldedRefs s) ∧ (∀ r ∈ foldedRefs s, mapFind r s.baseNode ≠ none)

/-- The call that led from `s` to `s'` kept the base-node slots and added
neither a live nor a batched reference. -/
def Shrinks (s s' : Objects) : Prop :=
  s'.baseNode = s.baseNode ∧ (∀ r ∈ foldedRefs s', r ∈ foldedRefs s) ∧
    (liveRefs s').Sublist (liveRefs s)

/-! ## Sample data -/

/-- Sample float arithmetic for `sizeBelow`, given where single precision is
exact: a finite box with corners between -1024 and 1024, whole scales between
-1024 and 1024 and a threshold of magnitude at most 2^24, so that every
intermediate value is a whole number below 2^24.  There the outcome is that
of the code; elsewhere the sample answers false and is not used. -/
def sampleBelow (box : AxisAlignedBox) (scale : RealVector3) (threshold : Int) : Bool :=
  let bounded (v : Int) : Bool := decide (-1024 ≤ v) && decide (v ≤ 1024)
  let whole (r : OgreReal) : Bool := decide (r.exponent = 0) && bounded r.mantissa
  match box with
  | .finite lo hi =>
    if bounded lo.x && bounded lo.y && bounded lo.z && bounded hi.x && bounded hi.y &&
        bounded hi.z && whole scale.x && whole scale.y && whole scale.z &&
        decide (-16777216 ≤ threshold) && decide (threshold ≤ 16777216) then
      decide (max (max ((hi.x - lo.x) * scale.x.mantissa) ((hi.y - lo.y) * scale.y.mantissa))
        ((hi.z - lo.z) * scale.z.mantissa) < threshold)
    else false
  | _ => false

/-- Sample settings: batching and the small-object limit as given, statics
that always batch, and a cube of side 10 at the object's position as bounds. -/
def sampleEnv (batching limit : Bool) : Env :=
  { sizeBelow := sampleBelow,
    smallObjectSize := 250, limitSmallObjectDistance := limit, smallObjectDistance := 3500,
    useStaticGeometry := batching, staticTypeName := "N3ESM6StaticE",
    lightTypeName := "N3ESM5LightE",
    getWorldBounds := fun p _ => .finite p.pos ⟨p.pos.x + 10, p.pos.y + 10, p.pos.z + 10⟩,
    canBatch := fun _ _ => true }

/-- Sample settings in which only the mesh `b.nif` can be batched. -/
def meshEnv : Env := { sampleEnv true true with canBatch := fun _ mesh => decide (mesh = "b.nif") }

/-- A static in cell 7, of scale 1. -/
def crate : Ptr := ⟨1, 7, "N3ESM6StaticE", ⟨0, 0, 0⟩, ⟨0, 0, 0⟩, ⟨1, 0⟩⟩

/-- A second static in cell 7, of scale 2. -/
def barrel : Ptr := ⟨2, 7, "N3ESM6StaticE", ⟨5, -5, 20⟩, ⟨0, 0, 0⟩, ⟨2, 0⟩⟩

/-- A door in cell 7. -/
def door : Ptr := ⟨3, 7, "N3ESM4DoorE", ⟨5, 5, 5⟩, ⟨0, 0, 0⟩, ⟨1, 0⟩⟩

/-- A light in cell 7. -/
def lamp : Ptr := ⟨4, 7, "N3ESM5LightE", ⟨1, 2, 3⟩, ⟨0, 0, 0⟩, ⟨1, 0⟩⟩

/-- Sample settings under which doors are of the batched type. -/
def doorEnv : Env := { sampleEnv true true with staticTypeName := "N3ESM4DoorE" }

/-- The crate, inserted into the empty registry and folded into a batch. -/
def crateFolded : Objects :=
  (insertMesh (sampleEnv true true) crate "crate.nif" (insertBegin crate Objects.empty)).getD
    Objects.empty

/-- The lamp, inserted into the empty registry and kept as a live object. -/
def lampLive : Objects :=
  (insertMesh (sampleEnv true true) lamp "lamp.nif" (insertBegin lamp Objects.empty)).getD
    Objects.empty

/-- The door, inserted into the empty registry and folded into a batch. -/
def doorFolded : Objects :=
  (insertMesh doorEnv door "door.nif" (insertBegin door Objects.empty)).getD Objects.empty

/-- The crate and the barrel after `insertBegin`, before either has a mesh. -/
def bothBegun : Objects := insertBegin barrel (insertBegin crate Objects.empty)

/-- A history (most recent call first): a lamp and then a crate are inserted
into cell 7. -/
def lampThenCrate : List Op :=
  [.insertMesh crate "crate.nif", .insertBegin crate, .insertMesh lamp "lamp.nif",
   .insertBegin lamp]

/-- The state reached by the history `lampThenCrate`. -/
def afterLampThenCrate : Objects := (run (sampleEnv true true) lampThenCrate).getD Objects.empty

/-- The crate as it is referred to once it has moved to cell 8. -/
def crateIn8 : Ptr := { crate with cell := 8 }

/-- The state after the crate of `afterLampThenCrate` has moved to cell 8. -/
def crateMoved : Objects :=
  (updateObjectCell crate crateIn8 afterLampThenCrate).getD Objects.empty

/-! ## Facts about the maps -/

theorem mapFind_mapSet_self {V : Type} (k : Nat) (v : V) (m : List (Nat × V)) :
    mapFind k (mapSet k v m) = some v := by
  induction m with
  | nil => simp [mapSet, mapFind]
  | cons e rest ih =>
    by_cases h : e.1 = k
    · simp [mapSet, mapFind, h]
    · simp [mapSet, mapFind, h, ih]

theorem mapFind_mapSet_ne {V : Type} (k k' : Nat) (v : V) (m : List (Nat × V)) (hne : k' ≠ k) :
    mapFind k' (mapSet k v m) = mapFind k' m := by
  induction m with
  | nil => simp [mapSet, mapFind, Ne.symm hne]
  | cons e rest ih =>
    by_cases h : e.1 = k
    · have h2 : ¬ e.1 = k' := fun h3 => hne (h3.symm.trans h)
      simp [mapSet, mapFind, h, h2, Ne.symm hne]
    · by_cases h2 : e.1 = k'
      · simp [mapSet, mapFind, h, h2, hne]
      · simp [mapSet, mapFind, h, h2, ih]

theorem mapFind_mapErase_self {V : Type} (k : Nat) (m : List (Nat × V)) :
    mapFind k (mapErase k m) = none := by
  induction m with
  | nil => rfl
  | cons e rest ih =>
    by_cases h : e.1 = k
    · simpa [mapErase, List.filter_cons, h] using ih
    · simpa [mapErase, List.filter_cons, h, mapFind] using ih

theorem mapFind_mapErase_ne {V : Type} (k k' : Nat) (m : List (Nat × V)) (hne : k' ≠ k) :
    mapFind k' (mapErase k m) = mapFind k' m := by
  induction m with
  | nil => rfl
  | cons e rest ih =>
    by_cases h : e.1 = k
    · have h2 : ¬ e.1 = k' := fun h3 => hne (h3.symm.trans h)
      simpa [mapErase, List.filter_cons, h, mapFind, h2, Ne.symm hne] using ih
    · by_cases h2 : e.1 = k'
      · simp [mapErase, List.filter_cons, h, mapFind, h2, hne]
      · simpa [mapErase, List.filter_cons, h, mapFind, h2] using ih

theorem mapErase_idem {V : Type} (k : Nat) (m : List (Nat × V)) :
    mapErase k (mapErase k m) = mapErase k m := by
  simp [mapErase, List.filter_filter]

theorem mapFind_isSome_mapSet {V : Type} (k k' : Nat) (v : V) (m : List (Nat × V)) :
    (mapFind k' (mapSet k v m)).isSome = (decide (k' = k) || (mapFind k' m).isSome) := by
  by_cases h : k' = k
  · subst h; simp [mapFind_mapSet_self]
  · simp [mapFind_mapSet_ne k k' v m h, h]

theorem mapFind_mem {V : Type} (k : Nat) (v : V) (m : List (Nat × V))
    (h : mapFind k m = some v) : (k, v) ∈ m := by
  induction m with
  | nil => simp [mapFind] at h
  | cons e rest ih =>
    by_cases h1 : e.1 = k
    · simp [mapFind, h1] at h
      have : e = (k, v) := by rw [← h1, ← h]
      simp [this]
    · simp [mapFind, h1] at h
      exact List.mem_cons_of_mem _ (ih h)

theorem mem_mapSet {V : Type} (k : Nat) (v : V) (m : List (Nat × V)) (e : Nat × V)
    (h : e ∈ mapSet k v m) : e = (k, v) ∨ e ∈ m := by
  induction m with
  | nil => simpa [mapSet] using h
  | cons e0 rest ih =>
    by_cases h1 : e0.1 = k
    · simp [mapSet, h1] at h
      rcases h with h | h
      · exact Or.inl h
      · exact Or.inr (List.mem_cons_of_mem _ h)
    · simp [mapSet, h1] at h
      rcases h with h | h
      · exact Or.inr (by simp [h])
      · rcases ih h with h2 | h2
        · exact Or.inl h2
        · exact Or.inr (List.mem_cons_of_mem _ h2)

theorem mem_mapErase {V : Type} (k : Nat) (m : List (Nat × V)) (e : Nat × V)
    (h : e ∈ mapErase k m) : e ∈ m := by
  simp [mapErase] at h
  exact h.1

theorem mapErase_of_find_none {V : Type} (k : Nat) (m : List (Nat × V))
    (h : mapFind k m = none) : mapErase k m = m := by
  induction m with
  | nil => rfl
  | cons e rest ih =>
    by_cases h1 : e.1 = k
    · simp [mapFind, h1] at h
    · simp [mapFind, h1] at h
      simp [mapErase, List.filter_cons, h1]
      simpa [mapErase] using ih h

/-! ## What removeCell does to each part of the registry -/

theorem removeCell_mObjects (store : Nat) (s : Objects) :
    (removeCell store s).mObjects = s.mObjects.filter (fun e => decide (e.1.cell ≠ store)) := by
  unfold removeCell
  cases h1 : mapFind store s.mStaticGeometry <;>
  cases h2 : mapFind store s.mStaticGeometrySmall <;>
  cases h3 : mapFind store s.mCellSceneNodes <;> simp [h1, h2, h3]

theorem removeCell_mStaticGeometry (store : Nat) (s : Objects) :
    (removeCell store s).mStaticGeometry = mapErase store s.mStaticGeometry := by
  unfold removeCell
  cases h1 : mapFind store s.mStaticGeometry <;>
  cases h2 : mapFind store s.mStaticGeometrySmall <;>
  cases h3 : mapFind store s.mCellSceneNodes <;> simp [h1, h2, h3, mapErase_of_find_none]

theorem removeCell_mStaticGeometrySmall (store : Nat) (s : Objects) :
    (removeCell store s).mStaticGeometrySmall = mapErase store s.mStaticGeometrySmall := by
  unfold removeCell
  cases h1 : mapFind store s.mStaticGeometry <;>
  cases h2 : mapFind store s.mStaticGeometrySmall <;>
  cases h3 : mapFind store s.mCellSceneNodes <;> simp [h1, h2, h3, mapErase_of_find_none]

theorem removeCell_mBounds (store : Nat) (s : Objects) :
    (removeCell store s).mBounds = mapErase store s.mBounds := by
  unfold removeCell
  cases h1 : mapFind store s.mStaticGeometry <;>
  cases h2 : mapFind store s.mStaticGeometrySmall <;>
  cases h3 : mapFind store s.mCellSceneNodes <;> simp [h1, h2, h3]

theorem removeCell_mCellSceneNodes (store : Nat) (s : Objects) :
    (removeCell store s).mCellSceneNodes = mapErase store s.mCellSceneNodes := by
  unfold removeCell
  cases h1 : mapFind store s.mStaticGeometry <;>
  cases h2 : mapFind store s.mStaticGeometrySmall <;>
  cases h3 : mapFind store s.mCellSceneNodes <;> simp [h1, h2, h3, mapErase_of_find_none]

theorem removeCell_baseNode (store : Nat) (s : Objects) :
    (removeCell store s).baseNode = s.baseNode := by
  unfold removeCell
  cases h1 : mapFind store s.mStaticGeometry <;>
  cases h2 : mapFind store s.mStaticGeometrySmall <;>
  cases h3 : mapFind store s.mCellSceneNodes <;> simp [h1, h2, h3]

/-! ## deleteObject on an object without base node (C2) -/

/-- C2 as stated fails: the claim that `deleteObject` on an object whose base
node is null leaves the state alone and returns false is refuted by the empty
registry, where the call returns true. -/
theorem deleteObject_null_base_not_false :
    ¬ ∀ (ptr : Ptr) (s : Objects), mapFind ptr.ref s.baseNode = none →
        deleteObject ptr s = (false, s) := by
  intro h
  have h1 := h crate Objects.empty (by decide)
  revert h1
  decide

/-- C2, amended: for every registry state and every object whose base-node
reference is null, `deleteObject` changes nothing (no map, no scene node, no
base-node slot) and returns true. -/
theorem deleteObject_null_base (ptr : Ptr) (s : Objects)
    (hnull : mapFind ptr.ref s.baseNode = none) :
    deleteObject ptr s = (true, s) := by
  simp [deleteObject, hnull]

/-- C2, amended, at a sample input: the crate has no base node in a registry
that holds the door only. -/
theorem deleteObject_null_base_witness :
    mapFind crate.ref (insertBegin door Objects.empty).baseNode = none ∧
      deleteObject crate (insertBegin door Objects.empty)
        = (true, insertBegin door Objects.empty) :=
  ⟨by decide, deleteObject_null_base crate (insertBegin door Objects.empty) (by decide)⟩

/-! ## removeCell (C3, C4) -/

/-- C3: `removeCell` is idempotent: for every registry state and every cell,
a second `removeCell` of the same cell leaves the whole state (all five maps,
the scene graph, the base-node slots and the counter) as the first call left
it. -/
theorem removeCell_idempotent (store : Nat) (s : Objects) :
    removeCell store (removeCell store s) = removeCell store s := by
  have hf : ∀ m : List (Ptr × ObjectAnimation),
      (m.filter (fun e => decide (e.1.cell ≠ store))).filter (fun e => decide (e.1.cell ≠ store))
        = m.filter (fun e => decide (e.1.cell ≠ store)) := by
    intro m; simp [List.filter_filter]
  unfold removeCell
  cases h1 : mapFind store s.mStaticGeometry <;>
  cases h2 : mapFind store s.mStaticGeometrySmall <;>
  cases h3 : mapFind store s.mCellSceneNodes <;>
  simp [h1, h2, h3, mapFind_mapErase_self, mapErase_idem, hf]

/-- C4: after `removeCell(cell)`, from every registry state, no entry of the
live-objects map belongs to the cell, neither static-geometry map has an entry
for it, the bounds map has none (so `getDimensions` returns the null box) and
the cell-node map has none. -/
theorem removeCell_clears_cell (store : Nat) (s : Objects) :
    (∀ e ∈ (removeCell store s).mObjects, e.1.cell ≠ store) ∧
    mapFind store (removeCell store s).mStaticGeometry = none ∧
    mapFind store (removeCell store s).mStaticGeometrySmall = none ∧
    mapFind store (removeCell store s).mBounds = none ∧
    (getDimensions store (removeCell store s)).1 = AxisAlignedBox.BOX_NULL ∧
    mapFind store (removeCell store s).mCellSceneNodes = none := by
  refine ⟨?_, ?_, ?_, ?_, ?_, ?_⟩
  · intro e he
    rw [removeCell_mObjects] at he
    simpa using (List.mem_filter.mp he).2
  · rw [removeCell_mStaticGeometry]; exact mapFind_mapErase_self _ _
  · rw [removeCell_mStaticGeometrySmall]; exact mapFind_mapErase_self _ _
  · rw [removeCell_mBounds]; exact mapFind_mapErase_self _ _
  · have h : mapFind store (removeCell store s).mBounds = none := by
      rw [removeCell_mBounds]; exact mapFind_mapErase_self _ _
    simp [getDimensions, h]
  · rw [removeCell_mCellSceneNodes]; exact mapFind_mapErase_self _ _

/-! ## Doors (C6) -/

/-- C6: in `insertMesh`, an object whose type name contains `Door` is
classified as not small whatever its bounds and scale (its size, and whatever
the float comparison of the environment yields), the size threshold and the
limit-small-object-distance flag are; consequently `insertMesh` on a door
leaves the small static-geometry map untouched, and when the door is folded it
goes into the normal group of its cell, which carries the `RV_Statics`
visibility flag. -/
theorem door_never_small (env : Env) (ptr : Ptr) (hdoor : hasDoor ptr.typeName = true) :
    (∀ (bounds : AxisAlignedBox) (scale : RealVector3), isSmall env ptr bounds scale = false) ∧
    (∀ (mesh : String) (s s' : Objects), insertMesh env ptr mesh s = some s' →
      s'.mStaticGeometrySmall = s.mStaticGeometrySmall ∧
      (folds env ptr mesh = true →
        ∃ sg, mapFind ptr.cell s'.mStaticGeometry = some sg ∧
          sg.visibilityFlags = some VisibilityFlags.RV_Statics ∧
          (ptr.ref, mesh) ∈ sg.queued)) := by
  have hsmall :
      ∀ (bounds : AxisAlignedBox) (scale : RealVector3), isSmall env ptr bounds scale = false := by
    intro bounds scale; simp [isSmall, hdoor]
  refine ⟨hsmall, ?_⟩
  intro mesh s s' h
  unfold insertMesh at h
  cases hb : mapFind ptr.ref s.baseNode with
  | none => simp [hb] at h
  | some insert =>
    cases hn : s.scene.getNode insert with
    | none => simp [hb, hn] at h
    | some node =>
      simp only [hb, hn, hsmall] at h
      by_cases hf : folds env ptr mesh = true
      · cases hg : mapFind ptr.cell s.mStaticGeometry with
        | none =>
          simp [hf, hg] at h
          subst h
          simp [mapFind_mapSet_self, configureBatch]
        | some sg =>
          simp [hf, hg] at h
          subst h
          simp [mapFind_mapSet_self, configureBatch]
      · simp [hf] at h
        subst h
        simp [hf]

/-! ## What insertMesh does to each part of the registry -/

theorem insertMesh_base (env : Env) (ptr : Ptr) (mesh : String) (s s' : Objects)
    (h : insertMesh env ptr mesh s = some s') :
    ∃ insert node, mapFind ptr.ref s.baseNode = some insert ∧
      s.scene.getNode insert = some node := by
  unfold insertMesh at h
  cases hb : mapFind ptr.ref s.baseNode with
  | none => simp [hb] at h
  | some insert =>
    cases hn : s.scene.getNode insert with
    | none => simp [hb, hn] at h
    | some node => exact ⟨insert, node, rfl, hn⟩

theorem insertMesh_frame (env : Env) (ptr : Ptr) (mesh : String) (s s' : Objects)
    (h : insertMesh env ptr mesh s = some s') :
    s'.baseNode = s.baseNode ∧ s'.scene = s.scene ∧ s'.mCellSceneNodes = s.mCellSceneNodes ∧
      s'.mRootNode = s.mRootNode := by
  unfold insertMesh at h
  cases hb : mapFind ptr.ref s.baseNode with
  | none => simp [hb] at h
  | some insert =>
    cases hn : s.scene.getNode insert with
    | none => simp [hb, hn] at h
    | some node =>
      simp only [hb, hn] at h
      split at h
      · split at h
        · split at h <;> (simp at h; subst h; simp)
        · split at h <;> (simp at h; subst h; simp)
      · simp at h; subst h; simp

theorem insertMesh_mBounds (env : Env) (ptr : Ptr) (mesh : String) (s s' : Objects)
    (h : insertMesh env ptr mesh s = some s') :
    mapFind ptr.cell s'.mBounds
        = some (((mapFind ptr.cell s.mBounds).getD AxisAlignedBox.BOX_NULL).merge
            (env.getWorldBounds ptr mesh)) ∧
      ∀ c, c ≠ ptr.cell → mapFind c s'.mBounds = mapFind c s.mBounds := by
  unfold insertMesh at h
  cases hb : mapFind ptr.ref s.baseNode with
  | none => simp [hb] at h
  | some insert =>
    cases hn : s.scene.getNode insert with
    | none => simp [hb, hn] at h
    | some node =>
      simp only [hb, hn] at h
      cases hm : mapFind ptr.cell s.mBounds with
      | none =>
        split at h
        · split at h
          · split at h <;>
              (simp [hm] at h; subst h
               refine ⟨by simp [mapFind_mapSet_self], ?_⟩
               intro c hc
               simp [mapFind_mapSet_ne _ _ _ _ hc])
          · split at h <;>
              (simp [hm] at h; subst h
               refine ⟨by simp [mapFind_mapSet_self], ?_⟩
               intro c hc
               simp [mapFind_mapSet_ne _ _ _ _ hc])
        · simp [hm] at h; subst h
          refine ⟨by simp [mapFind_mapSet_self], ?_⟩
          intro c hc
          simp [mapFind_mapSet_ne _ _ _ _ hc]
      | some box =>
        split at h
        · split at h
          · split at h <;>
              (simp [hm] at h; subst h
               refine ⟨by simp [mapFind_mapSet_self], ?_⟩
               intro c hc
               simp [mapFind_mapSet_ne _ _ _ _ hc])
          · split at h <;>
              (simp [hm] at h; subst h
               refine ⟨by simp [mapFind_mapSet_self], ?_⟩
               intro c hc
               simp [mapFind_mapSet_ne _ _ _ _ hc])
        · simp [hm] at h; subst h
          refine ⟨by simp [mapFind_mapSet_self], ?_⟩
          intro c hc
          simp [mapFind_mapSet_ne _ _ _ _ hc]

theorem insertMesh_nofold (env : Env) (ptr : Ptr) (mesh : String) (s s' : Objects)
    (h : insertMesh env ptr mesh s = some s') (hf : folds env ptr mesh = false) :
    s'.mStaticGeometry = s.mStaticGeometry ∧ s'.mStaticGeometrySmall = s.mStaticGeometrySmall ∧
      ∃ anim, s'.mObjects = objInsert ptr anim s.mObjects := by
  unfold insertMesh at h
  cases hb : mapFind ptr.ref s.baseNode with
  | none => simp [hb] at h
  | some insert =>
    cases hn : s.scene.getNode insert with
    | none => simp [hb, hn] at h
    | some node =>
      simp only [hb, hn, hf] at h
      simp at h
      subst h
      exact ⟨rfl, rfl, _, rfl⟩

theorem insertMesh_fold (env : Env) (ptr : Ptr) (mesh : String) (s s' : Objects)
    (h : insertMesh env ptr mesh s = some s') (hf : folds env ptr mesh = true) :
    s'.mObjects = s.mObjects ∧
    ∃ insert node sg0, mapFind ptr.ref s.baseNode = some insert ∧
      s.scene.getNode insert = some node ∧
      ((isSmall env ptr (env.getWorldBounds ptr mesh) node.scale = true ∧
          s'.mStaticGeometrySmall
            = mapSet ptr.cell (configureBatch true ptr mesh sg0) s.mStaticGeometrySmall ∧
          s'.mStaticGeometry = s.mStaticGeometry ∧
          (mapFind ptr.cell s.mStaticGeometrySmall = some sg0 ∨
            (mapFind ptr.cell s.mStaticGeometrySmall = none ∧ sg0.queued = []))) ∨
       (isSmall env ptr (env.getWorldBounds ptr mesh) node.scale = false ∧
          s'.mStaticGeometry
            = mapSet ptr.cell (configureBatch false ptr mesh sg0) s.mStaticGeometry ∧
          s'.mStaticGeometrySmall = s.mStaticGeometrySmall ∧
          (mapFind ptr.cell s.mStaticGeometry = some sg0 ∨
            (mapFind ptr.cell s.mStaticGeometry = none ∧ sg0.queued = [])))) := by
  unfold insertMesh at h
  cases hb : mapFind ptr.ref s.baseNode with
  | none => simp [hb] at h
  | some insert =>
    cases hn : s.scene.getNode insert with
    | none => simp [hb, hn] at h
    | some node =>
      simp only [hb, hn, hf] at h
      cases hsm : isSmall env ptr (env.getWorldBounds ptr mesh) node.scale with
      | true =>
        cases hg : mapFind ptr.cell s.mStaticGeometrySmall with
        | none =>
          simp [hsm, hg] at h
          subst h
          refine ⟨rfl, insert, node, _, rfl, hn, Or.inl ⟨hsm, rfl, rfl, Or.inr ⟨rfl, ?_⟩⟩⟩
          simp [createStaticGeometry]
        | some sg =>
          simp [hsm, hg] at h
          subst h
          exact ⟨rfl, insert, node, sg, rfl, hn, Or.inl ⟨hsm, rfl, rfl, Or.inl rfl⟩⟩
      | false =>
        cases hg : mapFind ptr.cell s.mStaticGeometry with
        | none =>
          simp [hsm, hg] at h
          subst h
          refine ⟨rfl, insert, node, _, rfl, hn, Or.inr ⟨hsm, rfl, rfl, Or.inr ⟨rfl, ?_⟩⟩⟩
          simp [createStaticGeometry]
        | some sg =>
          simp [hsm, hg] at h
          subst h
          exact ⟨rfl, insert, node, sg, rfl, hn, Or.inr ⟨hsm, rfl, rfl, Or.inl rfl⟩⟩

/-! ## Facts about the live-objects map -/

theorem objFind_none_iff (ptr : Ptr) (m : List (Ptr × ObjectAnimation)) :
    objFind ptr m = none ↔ ∀ e ∈ m, e.1.ref ≠ ptr.ref := by
  induction m with
  | nil => simp [objFind]
  | cons e rest ih =>
    by_cases h : e.1.ref = ptr.ref
    · simp [objFind, h]
    · simp [objFind, h, ih]

theorem objCount_of_none (ptr : Ptr) (m : List (Ptr × ObjectAnimation))
    (h : objFind ptr m = none) : objCount ptr m = 0 := by
  rw [objFind_none_iff] at h
  simp only [objCount, List.countP_eq_zero]
  intro e he
  simpa using h e he

theorem objCount_objInsert (ptr : Ptr) (anim : ObjectAnimation) (m : List (Ptr × ObjectAnimation))
    (h : objFind ptr m = none) : objCount ptr (objInsert ptr anim m) = 1 := by
  have h0 := objCount_of_none ptr m h
  simp only [objCount] at h0
  simp [objInsert, h, objCount, List.countP_append, h0]

theorem objFind_objInsert (ptr : Ptr) (anim : ObjectAnimation) (m : List (Ptr × ObjectAnimation)) :
    (objFind ptr (objInsert ptr anim m)).isSome = true := by
  cases h : objFind ptr m with
  | some a => simp [objInsert, h]
  | none =>
    simp only [objInsert, h]
    induction m with
    | nil => simp [objFind]
    | cons e rest ih =>
      by_cases h1 : e.1.ref = ptr.ref
      · simp [objFind, h1] at h
      · simp [objFind, h1] at h
        simpa [objFind, h1] using ih h

theorem objFind_objErase (ptr : Ptr) (m : List (Ptr × ObjectAnimation)) :
    objFind ptr (objErase ptr m) = none := by
  rw [objFind_none_iff]
  intro e he
  simpa [objErase] using (List.mem_filter.mp he).2

theorem forwardAll_keys (call : AnimCall) (s : Objects) :
    visited (forwardAll call s) = visited s := by
  simp [visited, forwardAll, List.map_map, Function.comp_def]

/-! ## Facts about the batched references -/

theorem mem_foldedRefs (r : Nat) (s : Objects) :
    r ∈ foldedRefs s ↔
      (∃ e ∈ s.mStaticGeometry, ∃ q ∈ e.2.queued, q.1 = r) ∨
      (∃ e ∈ s.mStaticGeometrySmall, ∃ q ∈ e.2.queued, q.1 = r) := by
  simp only [foldedRefs, List.mem_flatten, List.mem_map, List.mem_append]
  constructor
  · rintro ⟨l, ⟨e, he, rfl⟩, hr⟩
    simp only [List.mem_map] at hr
    obtain ⟨q, hq, rfl⟩ := hr
    rcases he with he | he
    · exact Or.inl ⟨e, he, q, hq, rfl⟩
    · exact Or.inr ⟨e, he, q, hq, rfl⟩
  · rintro (⟨e, he, q, hq, rfl⟩ | ⟨e, he, q, hq, rfl⟩)
    · exact ⟨_, ⟨e, Or.inl he, rfl⟩, List.mem_map.mpr ⟨q, hq, rfl⟩⟩
    · exact ⟨_, ⟨e, Or.inr he, rfl⟩, List.mem_map.mpr ⟨q, hq, rfl⟩⟩

theorem isFolded_iff (ptr : Ptr) (s : Objects) :
    isFolded ptr s = true ↔ ptr.ref ∈ foldedRefs s := by
  simp [isFolded]

theorem batch_refs_upper (m : List (Nat × StaticGeometry)) (c : Nat) (b : Bool) (ptr : Ptr)
    (mesh : String) (sg0 : StaticGeometry) (r : Nat)
    (h0 : mapFind c m = some sg0 ∨ (mapFind c m = none ∧ sg0.queued = []))
    (h : ∃ e ∈ mapSet c (configureBatch b ptr mesh sg0) m, ∃ q ∈ e.2.queued, q.1 = r) :
    (∃ e ∈ m, ∃ q ∈ e.2.queued, q.1 = r) ∨ r = ptr.ref := by
  obtain ⟨e, he, q, hq, hr⟩ := h
  rcases mem_mapSet _ _ _ _ he with he1 | he1
  · subst he1
    simp only [configureBatch, List.mem_append, List.mem_singleton] at hq
    rcases hq with hq | hq
    · rcases h0 with h0 | h0
      · exact Or.inl ⟨(c, sg0), mapFind_mem _ _ _ h0, q, hq, hr⟩
      · rw [h0.2] at hq; simp at hq
    · subst hq; exact Or.inr hr.symm
  · exact Or.inl ⟨e, he1, q, hq, hr⟩

theorem batch_refs_self (m : List (Nat × StaticGeometry)) (c : Nat) (b : Bool) (ptr : Ptr)
    (mesh : String) (sg0 : StaticGeometry) :
    ∃ e ∈ mapSet c (configureBatch b ptr mesh sg0) m, ∃ q ∈ e.2.queued, q.1 = ptr.ref :=
  ⟨(c, configureBatch b ptr mesh sg0), mapFind_mem _ _ _ (mapFind_mapSet_self _ _ _),
    (ptr.ref, mesh), by simp [configureBatch], rfl⟩

theorem insertMesh_foldedRefs (env : Env) (ptr : Ptr) (mesh : String) (s s' : Objects)
    (h : insertMesh env ptr mesh s = some s') :
    (folds env ptr mesh = true →
      ptr.ref ∈ foldedRefs s' ∧ ∀ r ∈ foldedRefs s', r ∈ foldedRefs s ∨ r = ptr.ref) ∧
    (folds env ptr mesh = false → foldedRefs s' = foldedRefs s) := by
  constructor
  · intro hf
    obtain ⟨_, insert, node, sg0, _, _, hcase⟩ := insertMesh_fold env ptr mesh s s' h hf
    rcases hcase with ⟨_, h1, h2, h3⟩ | ⟨_, h1, h2, h3⟩
    · constructor
      · rw [mem_foldedRefs, h1]
        exact Or.inr (batch_refs_self _ _ _ _ _ _)
      · intro r hr
        rw [mem_foldedRefs, h1, h2] at hr
        rw [mem_foldedRefs]
        rcases hr with hr | hr
        · exact Or.inl (Or.inl hr)
        · rcases batch_refs_upper _ _ _ _ _ _ _ h3 hr with h4 | h4
          · exact Or.inl (Or.inr h4)
          · exact Or.inr h4
    · constructor
      · rw [mem_foldedRefs, h1]
        exact Or.inl (batch_refs_self _ _ _ _ _ _)
      · intro r hr
        rw [mem_foldedRefs, h1, h2] at hr
        rw [mem_foldedRefs]
        rcases hr with hr | hr
        · rcases batch_refs_upper _ _ _ _ _ _ _ h3 hr with h4 | h4
          · exact Or.inl (Or.inl h4)
          · exact Or.inr h4
        · exact Or.inl (Or.inr hr)
  · intro hf
    obtain ⟨h1, h2, _⟩ := insertMesh_nofold env ptr mesh s s' h hf
    simp [foldedRefs, h1, h2]

/-! ## Facts about the scene graph and insertBegin -/

theorem getNode_modify (sc : SceneManager) (n k : Nat) (f : SceneNode → SceneNode)
    (hid : ∀ x, (f x).id = x.id) :
    (sc.modify n f).getNode k
      = (sc.getNode k).map (fun node => if node.id = n then f node else node) := by
  obtain ⟨nodes, nextId⟩ := sc
  simp only [SceneManager.getNode, SceneManager.modify]
  induction nodes with
  | nil => rfl
  | cons x rest ih =>
    by_cases hx : x.id = n
    · by_cases hk : x.id = k
      · simp [List.find?_cons, hx, hk, hid, hk.symm.trans hx]
      · have hk2 : ¬ n = k := fun h => hk (hx.trans h)
        simpa [List.find?_cons, hx, hk, hid, hk2] using ih
    · by_cases hk : x.id = k
      · have hkn : ¬ k = n := fun h => hx (hk.trans h)
        simp [List.find?_cons, hx, hk, hkn]
      · simpa [List.find?_cons, hx, hk] using ih

theorem getNode_modify_isSome (sc : SceneManager) (n k : Nat) (f : SceneNode → SceneNode)
    (hid : ∀ x, (f x).id = x.id) :
    ((sc.modify n f).getNode k).isSome = (sc.getNode k).isSome := by
  rw [getNode_modify sc n k f hid]
  cases sc.getNode k <;> rfl

theorem getNode_createChild (sc : SceneManager) (parent : Nat) :
    ((sc.createChildSceneNode parent).2.getNode (sc.createChildSceneNode parent).1).isSome
      = true := by
  simp [SceneManager.getNode, SceneManager.createChildSceneNode, List.find?_isSome]

theorem insertBegin_base (ptr : Ptr) (s : Objects) :
    ∃ n node, mapFind ptr.ref (insertBegin ptr s).baseNode = some n ∧
      (insertBegin ptr s).scene.getNode n = some node := by
  have h := getNode_createChild (cellNode ptr.cell s).2.scene (cellNode ptr.cell s).1
  have h2 : ((insertBegin ptr s).scene.getNode
      ((cellNode ptr.cell s).2.scene.createChildSceneNode (cellNode ptr.cell s).1).1).isSome
        = true := by
    simp only [insertBegin]
    rw [getNode_modify_isSome, getNode_modify_isSome, getNode_modify_isSome]
    · exact h
    all_goals intro x; rfl
  obtain ⟨node, hnode⟩ := Option.isSome_iff_exists.mp h2
  exact ⟨_, node, by simp only [insertBegin, mapFind_mapSet_self], hnode⟩

theorem insertMesh_returns (env : Env) (ptr : Ptr) (mesh : String) (s : Objects) (n : Nat)
    (node : SceneNode) (hb : mapFind ptr.ref s.baseNode = some n)
    (hn : s.scene.getNode n = some node) :
    ∃ s', insertMesh env ptr mesh s = some s' := by
  unfold insertMesh
  simp only [hb, hn]
  split
  · split
    · split <;> exact ⟨_, rfl⟩
    · split <;> exact ⟨_, rfl⟩
  · exact ⟨_, rfl⟩

/-! ## deleteObject after insertBegin and insertMesh (C1) -/

theorem deleteObject_of_null (ptr : Ptr) (s : Objects)
    (hnull : mapFind ptr.ref s.baseNode = none) : deleteObject ptr s = (true, s) := by
  simp [deleteObject, hnull]

/-- C1 as stated fails in both of its cases.  A static that `insertMesh` folded
into a batch: `deleteObject` returns false and leaves the base-node reference
set.  An object kept in the live-objects map: `deleteObject` returns true, and
a second `deleteObject` returns true again. -/
theorem deleteObject_after_insert_fails :
    (∃ s2, insertMesh (sampleEnv true true) crate "crate.nif" (insertBegin crate Objects.empty)
        = some s2 ∧ isFolded crate s2 = true ∧
      (deleteObject crate s2).1 = false ∧
      mapFind crate.ref (deleteObject crate s2).2.baseNode ≠ none) ∧
    (∃ s2, insertMesh (sampleEnv false true) crate "crate.nif" (insertBegin crate Objects.empty)
        = some s2 ∧ objCount crate s2.mObjects = 1 ∧
      (deleteObject crate s2).1 = true ∧
      (deleteObject crate (deleteObject crate s2).2).1 = true) := by
  refine ⟨⟨_, rfl, ?_, ?_, ?_⟩, ⟨_, rfl, ?_, ?_, ?_⟩⟩ <;> decide

/-- C1, amended: for every object that was inserted with `insertBegin` and then
`insertMesh` and whose animation handle was kept in the live-objects map (the
call did not fold it into a batch), the following `deleteObject` returns true,
removes its entry from the live-objects map and leaves its base-node reference
null; a further `deleteObject` on it changes nothing and returns true again. -/
theorem deleteObject_after_insert (env : Env) (ptr : Ptr) (mesh : String) (s : Objects)
    (hlive : folds env ptr mesh = false) :
    ∃ s2, insertMesh env ptr mesh (insertBegin ptr s) = some s2 ∧
      (deleteObject ptr s2).1 = true ∧
      mapFind ptr.ref (deleteObject ptr s2).2.baseNode = none ∧
      objFind ptr (deleteObject ptr s2).2.mObjects = none ∧
      deleteObject ptr (deleteObject ptr s2).2 = (true, (deleteObject ptr s2).2) := by
  obtain ⟨n, node, hb, hn⟩ := insertBegin_base ptr s
  obtain ⟨s2, h2⟩ := insertMesh_returns env ptr mesh (insertBegin ptr s) n node hb hn
  obtain ⟨_, _, anim, hobj⟩ := insertMesh_nofold env ptr mesh _ s2 h2 hlive
  have hbase : mapFind ptr.ref s2.baseNode = some n := by
    rw [(insertMesh_frame env ptr mesh _ s2 h2).1]; exact hb
  have hfind := objFind_objInsert ptr anim (insertBegin ptr s).mObjects
  rw [← hobj] at hfind
  obtain ⟨a, ha⟩ := Option.isSome_iff_exists.mp hfind
  have hdel : deleteObject ptr s2 = (true, { s2 with
      mObjects := objErase ptr s2.mObjects
      scene := s2.scene.destroySceneNode n
      baseNode := mapErase ptr.ref s2.baseNode }) := by
    simp [deleteObject, hbase, ha]
  have hnull : mapFind ptr.ref (deleteObject ptr s2).2.baseNode = none := by
    rw [hdel]; exact mapFind_mapErase_self _ _
  refine ⟨s2, h2, ?_, hnull, ?_, ?_⟩
  · rw [hdel]
  · rw [hdel]; exact objFind_objErase _ _
  · exact deleteObject_of_null _ _ hnull

/-! ## Folding and the per-object loops (C7) -/

theorem objCount_pos_of_some (ptr : Ptr) (m : List (Ptr × ObjectAnimation))
    (h : (objFind ptr m).isSome = true) : 1 ≤ objCount ptr m := by
  induction m with
  | nil => simp [objFind] at h
  | cons e rest ih =>
    by_cases h1 : e.1.ref = ptr.ref
    · simp [objCount, List.countP_cons, h1]
    · simp only [objFind, h1, if_false] at h
      have := ih h
      simp only [objCount] at this
      simp only [objCount, List.countP_cons, h1, decide_False, Bool.false_eq_true, if_false,
        Nat.add_zero]
      exact this

/-- C7 as stated fails: a folding `insertMesh` call on an object that already
has a live handle (it was given the unbatchable mesh `a.nif` before, and is
now given the batchable `b.nif`) folds the object into a batch and leaves its
entry in the live-objects map, so `update` and `enableLights` still visit
it. -/
theorem folding_call_on_live_object :
    ∃ s1 s2, insertMesh meshEnv crate "a.nif" (insertBegin crate Objects.empty) = some s1 ∧
      insertMesh meshEnv crate "b.nif" s1 = some s2 ∧
      folds meshEnv crate "b.nif" = true ∧ isFolded crate s2 = true ∧
      objCount crate s2.mObjects = 1 ∧
      crate ∈ visited (update 1 s2) ∧ crate ∈ visited (enableLights s2) ∧
      crate ∈ visited (disableLights s2) := by
  refine ⟨_, _, rfl, rfl, ?_, ?_, ?_, ?_, ?_, ?_⟩ <;> decide

/-- C7, amended: every `insertMesh` call that folds the object puts it in a
batch and leaves the live-objects map as it was, so an object that had no
entry in the live-objects map before the call has none afterwards and the
loops of `update`, `enableLights` and `disableLights` do not visit it (an
object that had an entry keeps it); every `insertMesh` call that does not
fold leaves the object with exactly one entry in the live-objects map (the
map holding at most one entry for it before the call, as a `std::map`
does). -/
theorem insertMesh_live_or_folded (env : Env) (ptr : Ptr) (mesh : String) (s s' : Objects)
    (h : insertMesh env ptr mesh s = some s') :
    (folds env ptr mesh = true →
      isFolded ptr s' = true ∧ s'.mObjects = s.mObjects ∧
      (objFind ptr s.mObjects = none →
        objCount ptr s'.mObjects = 0 ∧
        (∀ dt, ∀ q ∈ visited (update dt s'), q.ref ≠ ptr.ref) ∧
        (∀ q ∈ visited (enableLights s'), q.ref ≠ ptr.ref) ∧
        (∀ q ∈ visited (disableLights s'), q.ref ≠ ptr.ref))) ∧
    (folds env ptr mesh = false →
      objCount ptr s.mObjects ≤ 1 → objCount ptr s'.mObjects = 1) := by
  constructor
  · intro hf
    have hobj := (insertMesh_fold env ptr mesh s s' h hf).1
    refine ⟨?_, hobj, ?_⟩
    · rw [isFolded_iff]
      exact ((insertMesh_foldedRefs env ptr mesh s s' h).1 hf).1
    · intro hnew
      have hnone : objFind ptr s'.mObjects = none := by rw [hobj]; exact hnew
      have hvis : ∀ q ∈ visited s', q.ref ≠ ptr.ref := by
        intro q hq
        simp only [visited, List.mem_map] at hq
        obtain ⟨e, he, rfl⟩ := hq
        exact (objFind_none_iff ptr s'.mObjects).mp hnone e he
      refine ⟨objCount_of_none ptr _ hnone, ?_, ?_, ?_⟩
      · intro dt q hq
        rw [update, forwardAll_keys] at hq
        exact hvis q hq
      · intro q hq
        rw [enableLights, forwardAll_keys] at hq
        exact hvis q hq
      · intro q hq
        rw [disableLights, forwardAll_keys] at hq
        exact hvis q hq
  · intro hf hmap
    obtain ⟨_, _, anim, hobj⟩ := insertMesh_nofold env ptr mesh s s' h hf
    rw [hobj]
    cases hfind : objFind ptr s.mObjects with
    | none => exact objCount_objInsert ptr anim _ hfind
    | some a =>
      have hpos := objCount_pos_of_some ptr s.mObjects (by rw [hfind]; rfl)
      simp only [objInsert, hfind]
      omega

/-! ## Boxes: merge is the union -/

theorem merge_eq_boxUnion (a b : AxisAlignedBox) : a.merge b = boxUnion a b := by
  cases a <;> cases b <;> simp only [AxisAlignedBox.merge, boxUnion]
  simp only [Vector3.makeFloor, Vector3.makeCeil, min_def, max_def, gt_iff_lt,
    AxisAlignedBox.finite.injEq, Vector3.mk.injEq]
  refine ⟨⟨?_, ?_, ?_⟩, ⟨?_, ?_, ?_⟩⟩ <;> split_ifs <;> omega

theorem boxUnion_comm (a b : AxisAlignedBox) : boxUnion a b = boxUnion b a := by
  cases a <;> cases b <;> simp only [boxUnion]
  simp only [AxisAlignedBox.finite.injEq, Vector3.mk.injEq, min_comm, max_comm, and_self]

theorem inside_boxUnion_left (a b : AxisAlignedBox) : a.inside (boxUnion a b) := by
  cases a <;> cases b <;> simp [AxisAlignedBox.inside, boxUnion]

theorem inside_boxUnion_right (a b : AxisAlignedBox) : b.inside (boxUnion a b) := by
  rw [boxUnion_comm]; exact inside_boxUnion_left b a

theorem boxUnion_least (a b c : AxisAlignedBox) (ha : a.inside c) (hb : b.inside c) :
    (boxUnion a b).inside c := by
  cases a <;> cases b <;> cases c <;>
    simp_all [AxisAlignedBox.inside, boxUnion]

theorem getDimensions_fst (c : Nat) (s : Objects) :
    (getDimensions c s).1 = (mapFind c s.mBounds).getD AxisAlignedBox.BOX_NULL := by
  unfold getDimensions
  cases h : mapFind c s.mBounds <;> simp

theorem getDimensions_find (c c' : Nat) (s : Objects) :
    (mapFind c (getDimensions c' s).2.mBounds).getD AxisAlignedBox.BOX_NULL
      = (mapFind c s.mBounds).getD AxisAlignedBox.BOX_NULL := by
  unfold getDimensions
  cases h : mapFind c' s.mBounds with
  | some box => simp
  | none =>
    by_cases hc : c = c'
    · subst hc; simp [mapFind_mapSet_self, h]
    · simp [mapFind_mapSet_ne _ _ _ _ hc]

/-! ## What the other calls leave alone -/

theorem cellNode_frame (cell : Nat) (s : Objects) :
    (cellNode cell s).2.mBounds = s.mBounds ∧ (cellNode cell s).2.mObjects = s.mObjects ∧
    (cellNode cell s).2.mStaticGeometry = s.mStaticGeometry ∧
    (cellNode cell s).2.mStaticGeometrySmall = s.mStaticGeometrySmall ∧
    (cellNode cell s).2.baseNode = s.baseNode := by
  unfold cellNode
  cases h : mapFind cell s.mCellSceneNodes <;> simp

theorem cellNode_mCellSceneNodes (cell c : Nat) (s : Objects) :
    (mapFind c (cellNode cell s).2.mCellSceneNodes).isSome
      = (decide (c = cell) || (mapFind c s.mCellSceneNodes).isSome) := by
  unfold cellNode
  cases h : mapFind cell s.mCellSceneNodes with
  | none => simp [mapFind_isSome_mapSet]
  | some n =>
    by_cases hc : c = cell
    · subst hc; simp [h]
    · simp [hc]

theorem cellNode_keeps (cell : Nat) (n : Nat) (s : Objects)
    (h : mapFind cell s.mCellSceneNodes = some n) : cellNode cell s = (n, s) := by
  simp [cellNode, h]

theorem insertBegin_frame (ptr : Ptr) (s : Objects) :
    (insertBegin ptr s).mBounds = s.mBounds ∧ (insertBegin ptr s).mObjects = s.mObjects ∧
    (insertBegin ptr s).mStaticGeometry = s.mStaticGeometry ∧
    (insertBegin ptr s).mStaticGeometrySmall = s.mStaticGeometrySmall ∧
    (insertBegin ptr s).mCellSceneNodes = (cellNode ptr.cell s).2.mCellSceneNodes ∧
    ∃ n, (insertBegin ptr s).baseNode = mapSet ptr.ref n s.baseNode := by
  obtain ⟨h1, h2, h3, h4, h5⟩ := cellNode_frame ptr.cell s
  simp only [insertBegin, h1, h2, h3, h4, h5, true_and]
  exact ⟨_, rfl⟩

theorem deleteObject_frame (ptr : Ptr) (s : Objects) :
    (deleteObject ptr s).2.mBounds = s.mBounds ∧
    (deleteObject ptr s).2.mStaticGeometry = s.mStaticGeometry ∧
    (deleteObject ptr s).2.mStaticGeometrySmall = s.mStaticGeometrySmall ∧
    (deleteObject ptr s).2.mCellSceneNodes = s.mCellSceneNodes := by
  unfold deleteObject
  cases h1 : mapFind ptr.ref s.baseNode with
  | none => simp
  | some base => cases h2 : objFind ptr s.mObjects <;> simp

theorem buildStaticGeometry_frame (cell : Nat) (s : Objects) :
    (buildStaticGeometry cell s).mBounds = s.mBounds ∧
    (buildStaticGeometry cell s).mObjects = s.mObjects ∧
    (buildStaticGeometry cell s).mCellSceneNodes = s.mCellSceneNodes ∧
    (buildStaticGeometry cell s).baseNode = s.baseNode := by
  unfold buildStaticGeometry
  cases h1 : mapFind cell s.mStaticGeometry <;>
  cases h2 : mapFind cell s.mStaticGeometrySmall <;> simp [h2]

theorem getDimensions_frame (cell : Nat) (s : Objects) :
    (getDimensions cell s).2.mObjects = s.mObjects ∧
    (getDimensions cell s).2.mStaticGeometry = s.mStaticGeometry ∧
    (getDimensions cell s).2.mStaticGeometrySmall = s.mStaticGeometrySmall ∧
    (getDimensions cell s).2.mCellSceneNodes = s.mCellSceneNodes ∧
    (getDimensions cell s).2.baseNode = s.baseNode := by
  unfold getDimensions
  cases h1 : mapFind cell s.mBounds <;> simp

theorem updateObjectCell_frame (old cur : Ptr) (s s' : Objects)
    (h : updateObjectCell old cur s = some s') :
    s'.mBounds = s.mBounds ∧ s'.mObjects = s.mObjects ∧
    s'.mStaticGeometry = s.mStaticGeometry ∧
    s'.mStaticGeometrySmall = s.mStaticGeometrySmall ∧
    s'.baseNode = s.baseNode ∧
    s'.mCellSceneNodes = (cellNode cur.cell s).2.mCellSceneNodes := by
  obtain ⟨h1, h2, h3, h4, h5⟩ := cellNode_frame cur.cell s
  unfold updateObjectCell at h
  cases hb : mapFind cur.ref (cellNode cur.cell s).2.baseNode with
  | none => simp [hb] at h
  | some child =>
    cases hn : (cellNode cur.cell s).2.scene.getNode child with
    | none => simp [hb, hn] at h
    | some node =>
      simp [hb, hn] at h
      subst h
      simp [h1, h2, h3, h4, h5]

/-! ## Histories -/

theorem run_cons (env : Env) (op : Op) (earlier : List Op) (s : Objects)
    (h : run env (op :: earlier) = some s) :
    ∃ s0, run env earlier = some s0 ∧ step env op s0 = some s := by
  simp only [run] at h
  cases h0 : run env earlier with
  | none => simp [h0] at h
  | some s0 =>
    simp only [h0] at h
    exact ⟨s0, rfl, h⟩

theorem runWith_cons (env : Env) (allowed : List Op → Objects → Op → Bool) (op : Op)
    (earlier : List Op) (s : Objects) (h : runWith env allowed (op :: earlier) = some s) :
    ∃ s0, runWith env allowed earlier = some s0 ∧ allowed earlier s0 op = true ∧
      step env op s0 = some s := by
  simp only [runWith] at h
  cases h0 : runWith env allowed earlier with
  | none => simp [h0] at h
  | some s0 =>
    simp only [h0] at h
    by_cases hp : allowed earlier s0 op = true
    · simp only [hp, if_true] at h
      exact ⟨s0, rfl, hp, h⟩
    · simp [hp] at h

theorem run_of_runWith (env : Env) (allowed : List Op → Objects → Op → Bool) (h : List Op) :
    ∀ s, runWith env allowed h = some s → run env h = some s := by
  induction h with
  | nil => intro s hs; simpa [run, runWith] using hs
  | cons op earlier ih =>
    intro s hs
    obtain ⟨s0, h0, _, hstep⟩ := runWith_cons env allowed op earlier s hs
    simp only [run, ih s0 h0]
    exact hstep

theorem forwardAll_frame (call : AnimCall) (s : Objects) :
    (forwardAll call s).mBounds = s.mBounds ∧
    (forwardAll call s).mStaticGeometry = s.mStaticGeometry ∧
    (forwardAll call s).mStaticGeometrySmall = s.mStaticGeometrySmall ∧
    (forwardAll call s).mCellSceneNodes = s.mCellSceneNodes ∧
    (forwardAll call s).baseNode = s.baseNode := by
  simp [forwardAll]

theorem bounds_invariant (env : Env) (h : List Op) :
    ∀ s, run env h = some s → ∀ c,
      (mapFind c s.mBounds).getD AxisAlignedBox.BOX_NULL = unionAll (insertedSince env c h) := by
  induction h with
  | nil =>
    intro s hrun c
    simp only [run, Option.some.injEq] at hrun
    subst hrun
    rfl
  | cons op earlier ih =>
    intro s hrun c
    obtain ⟨s0, h0, hstep⟩ := run_cons env op earlier s hrun
    have ih0 := ih s0 h0 c
    cases op with
    | insertBegin ptr =>
      simp only [step, Option.some.injEq] at hstep
      subst hstep
      rw [(insertBegin_frame ptr s0).1]
      simpa [insertedSince] using ih0
    | insertMesh ptr mesh =>
      simp only [step] at hstep
      obtain ⟨hm1, hm2⟩ := insertMesh_mBounds env ptr mesh s0 s hstep
      by_cases hc : ptr.cell = c
      · subst hc
        rw [hm1]
        simp only [insertedSince, if_true, unionAll, Option.getD_some]
        rw [merge_eq_boxUnion, boxUnion_comm, ih0]
      · rw [hm2 c (Ne.symm hc)]
        simpa [insertedSince, hc] using ih0
    | deleteObject ptr =>
      simp only [step, Option.some.injEq] at hstep
      subst hstep
      rw [(deleteObject_frame ptr s0).1]
      simpa [insertedSince] using ih0
    | removeCell store =>
      simp only [step, Option.some.injEq] at hstep
      subst hstep
      rw [removeCell_mBounds]
      by_cases hc : store = c
      · subst hc
        simp [insertedSince, mapFind_mapErase_self, unionAll, AxisAlignedBox.BOX_NULL]
      · rw [mapFind_mapErase_ne _ _ _ (Ne.symm hc)]
        simpa [insertedSince, hc] using ih0
    | buildStaticGeometry cell =>
      simp only [step, Option.some.injEq] at hstep
      subst hstep
      rw [(buildStaticGeometry_frame cell s0).1]
      simpa [insertedSince] using ih0
    | getDimensions cell =>
      simp only [step, Option.some.injEq] at hstep
      subst hstep
      rw [getDimensions_find]
      simpa [insertedSince] using ih0
    | enableLights =>
      simp only [step, Option.some.injEq] at hstep
      subst hstep
      rw [enableLights, (forwardAll_frame _ s0).1]
      simpa [insertedSince] using ih0
    | disableLights =>
      simp only [step, Option.some.injEq] at hstep
      subst hstep
      rw [disableLights, (forwardAll_frame _ s0).1]
      simpa [insertedSince] using ih0
    | update dt =>
      simp only [step, Option.some.injEq] at hstep
      subst hstep
      rw [update, (forwardAll_frame _ s0).1]
      simpa [insertedSince] using ih0
    | rebuildStaticGeometry =>
      simp only [step, Option.some.injEq] at hstep
      subst hstep
      simpa [insertedSince, rebuildStaticGeometry] using ih0
    | updateObjectCell old cur =>
      simp only [step] at hstep
      rw [(updateObjectCell_frame old cur s0 s hstep).1]
      simpa [insertedSince] using ih0

/-! ## Cell bounds (C5) -/

theorem insertMesh_twice_bounds (env : Env) (A B : Ptr) (mA mB : String) (s : Objects)
    (nA nB : Nat) (nodeA nodeB : SceneNode) (hcell : A.cell = B.cell)
    (hnone : mapFind A.cell s.mBounds = none)
    (hA : mapFind A.ref s.baseNode = some nA) (hnA : s.scene.getNode nA = some nodeA)
    (hB : mapFind B.ref s.baseNode = some nB) (hnB : s.scene.getNode nB = some nodeB) :
    ∃ sAB, (insertMesh env A mA s).bind (insertMesh env B mB) = some sAB ∧
      (getDimensions A.cell sAB).1
        = boxUnion (env.getWorldBounds A mA) (env.getWorldBounds B mB) := by
  obtain ⟨sA, h1⟩ := insertMesh_returns env A mA s nA nodeA hA hnA
  obtain ⟨hb, hsc, _, _⟩ := insertMesh_frame env A mA s sA h1
  obtain ⟨sAB, h2⟩ := insertMesh_returns env B mB sA nB nodeB (by rw [hb]; exact hB)
    (by rw [hsc]; exact hnB)
  refine ⟨sAB, by simp [h1, h2], ?_⟩
  have e1 := (insertMesh_mBounds env A mA s sA h1).1
  have e2 := (insertMesh_mBounds env B mB sA sAB h2).1
  rw [← hcell, e1] at e2
  rw [getDimensions_fst, e2, hnone]
  simp only [Option.getD_none, Option.getD_some, merge_eq_boxUnion, AxisAlignedBox.BOX_NULL]
  cases env.getWorldBounds A mA <;> rfl

/-- C5: for every cell with no bounds entry and every two objects A and B of
that cell that `insertBegin` has given a base node, `insertMesh` of A then B
and `insertMesh` of B then A both return, `getDimensions` of the cell gives
the same box after either order, and that box is the union of the world bounds
of A and of B: it encloses both and lies inside every box that encloses both.
In general, in every state reached from the empty registry, the box of a cell
is the union of the world bounds of all objects given a mesh in that cell
since its last `removeCell`. -/
theorem bounds_are_union (env : Env) :
    (∀ (A B : Ptr) (mA mB : String) (s : Objects) (nA nB : Nat) (nodeA nodeB : SceneNode),
      A.cell = B.cell → mapFind A.cell s.mBounds = none →
      mapFind A.ref s.baseNode = some nA → s.scene.getNode nA = some nodeA →
      mapFind B.ref s.baseNode = some nB → s.scene.getNode nB = some nodeB →
      ∃ sAB sBA,
        (insertMesh env A mA s).bind (insertMesh env B mB) = some sAB ∧
        (insertMesh env B mB s).bind (insertMesh env A mA) = some sBA ∧
        (getDimensions A.cell sAB).1 = (getDimensions A.cell sBA).1 ∧
        (getDimensions A.cell sAB).1
          = boxUnion (env.getWorldBounds A mA) (env.getWorldBounds B mB) ∧
        (env.getWorldBounds A mA).inside (getDimensions A.cell sAB).1 ∧
        (env.getWorldBounds B mB).inside (getDimensions A.cell sAB).1 ∧
        ∀ box : AxisAlignedBox, (env.getWorldBounds A mA).inside box →
          (env.getWorldBounds B mB).inside box → ((getDimensions A.cell sAB).1).inside box) ∧
    (∀ (h : List Op) (s : Objects), run env h = some s →
      ∀ c, (getDimensions c s).1 = unionAll (insertedSince env c h)) := by
  constructor
  · intro A B mA mB s nA nB nodeA nodeB hcell hnone hA hnA hB hnB
    obtain ⟨sAB, h1, e1⟩ :=
      insertMesh_twice_bounds env A B mA mB s nA nB nodeA nodeB hcell hnone hA hnA hB hnB
    obtain ⟨sBA, h2, e2⟩ :=
      insertMesh_twice_bounds env B A mB mA s nB nA nodeB nodeA hcell.symm
        (by rw [← hcell]; exact hnone) hB hnB hA hnA
    rw [← hcell, boxUnion_comm] at e2
    refine ⟨sAB, sBA, h1, h2, by rw [e1, e2], e1, ?_, ?_, ?_⟩
    · rw [e1]; exact inside_boxUnion_left _ _
    · rw [e1]; exact inside_boxUnion_right _ _
    · intro box ha hb
      rw [e1]; exact boxUnion_least _ _ _ ha hb
  · intro h s hrun c
    rw [getDimensions_fst]
    exact bounds_invariant env h s hrun c

/-! ## The node that insertBegin creates -/

theorem insertBegin_node (ptr : Ptr) (s : Objects) :
    ∃ n node, mapFind ptr.ref (insertBegin ptr s).baseNode = some n ∧
      (insertBegin ptr s).scene.getNode n = some node ∧
      node.scale = ⟨ptr.scale, ptr.scale, ptr.scale⟩ := by
  have hsome := getNode_createChild (cellNode ptr.cell s).2.scene (cellNode ptr.cell s).1
  obtain ⟨x, hx⟩ := Option.isSome_iff_exists.mp hsome
  have hxid : x.id = ((cellNode ptr.cell s).2.scene.createChildSceneNode
      (cellNode ptr.cell s).1).1 := by
    have := List.find?_some hx
    simpa using this
  have hb : mapFind ptr.ref (insertBegin ptr s).baseNode
      = some ((cellNode ptr.cell s).2.scene.createChildSceneNode (cellNode ptr.cell s).1).1 := by
    simp only [insertBegin, mapFind_mapSet_self]
  have hn : (insertBegin ptr s).scene.getNode
      ((cellNode ptr.cell s).2.scene.createChildSceneNode (cellNode ptr.cell s).1).1
        = some ⟨x.id, x.parent, ptr.pos, ⟨ptr.scale, ptr.scale, ptr.scale⟩,
            [(-ptr.rot.x, .UNIT_X), (-ptr.rot.y, .UNIT_Y), (-ptr.rot.z, .UNIT_Z)]⟩ := by
    simp only [insertBegin]
    rw [getNode_modify _ _ _ _ (by intro x; rfl), getNode_modify _ _ _ _ (by intro x; rfl),
      getNode_modify _ _ _ _ (by intro x; rfl), hx]
    simp [hxid]
  exact ⟨_, _, hb, hn, rfl⟩

/-! ## Two small statics in one cell (C8) -/

theorem insert_small_static (env : Env) (ptr : Ptr) (mesh : String) (s : Objects)
    (hdoor : hasDoor ptr.typeName = false)
    (hsize : env.sizeBelow (env.getWorldBounds ptr mesh) ⟨ptr.scale, ptr.scale, ptr.scale⟩
      env.smallObjectSize = true)
    (hlimit : env.limitSmallObjectDistance = true) (hfold : folds env ptr mesh = true) :
    ∃ s' sg0, insertMesh env ptr mesh (insertBegin ptr s) = some s' ∧
      s'.mStaticGeometry = s.mStaticGeometry ∧
      s'.mStaticGeometrySmall
        = mapSet ptr.cell (configureBatch true ptr mesh sg0) s.mStaticGeometrySmall ∧
      (mapFind ptr.cell s.mStaticGeometrySmall = some sg0 ∨
        (mapFind ptr.cell s.mStaticGeometrySmall = none ∧ sg0.queued = [])) ∧
      mapFind ptr.cell s'.mBounds
        = some (((mapFind ptr.cell s.mBounds).getD AxisAlignedBox.BOX_NULL).merge
            (env.getWorldBounds ptr mesh)) := by
  obtain ⟨n, node, hb, hn, hscale⟩ := insertBegin_node ptr s
  obtain ⟨s', h⟩ := insertMesh_returns env ptr mesh (insertBegin ptr s) n node hb hn
  obtain ⟨_, n2, node2, sg0, hb2, hn2, hcase⟩ := insertMesh_fold env ptr mesh _ s' h hfold
  have e1 : n2 = n := by rw [hb] at hb2; exact (Option.some.inj hb2).symm
  subst e1
  have e2 : node2 = node := by rw [hn] at hn2; exact (Option.some.inj hn2).symm
  subst e2
  have hsmall : isSmall env ptr (env.getWorldBounds ptr mesh) node2.scale = true := by
    simp [isSmall, hdoor, hscale, hsize, hlimit]
  obtain ⟨_, _, h3, h4, _⟩ := insertBegin_frame ptr s
  have hbd := (insertMesh_mBounds env ptr mesh _ s' h).1
  rw [(insertBegin_frame ptr s).1] at hbd
  rcases hcase with ⟨_, c1, c2, c3⟩ | ⟨hns, _⟩
  · rw [h4] at c1 c3
    rw [h3] at c2
    exact ⟨s', sg0, h, c2, c1, c3, hbd⟩
  · rw [hsmall] at hns; cases hns

/-- C8 as stated fails, in three ways.  With static batching enabled but the
limit-small-object-distance setting off, two non-door statics whose largest
scaled extent (10 and 20) is below the threshold (250) are folded into the
normal static-geometry group of their cell, and the small map gets no entry.
With both settings on, a non-door object below the threshold that is not of
the static type (a light) is not folded at all.  And with both settings on,
in a cell that already has bounds (from a door), `getDimensions` after the two
statics is not the union of the boxes of the two. -/
theorem small_statics_scenario_fails :
    (∃ s', (insertMesh (sampleEnv true false) crate "crate.nif"
            (insertBegin crate Objects.empty)).bind
          (fun s => insertMesh (sampleEnv true false) barrel "barrel.nif" (insertBegin barrel s))
        = some s' ∧
      (sampleEnv true false).useStaticGeometry = true ∧
      hasDoor crate.typeName = false ∧ hasDoor barrel.typeName = false ∧
      (sampleEnv true false).sizeBelow ((sampleEnv true false).getWorldBounds crate "crate.nif")
          ⟨crate.scale, crate.scale, crate.scale⟩ (sampleEnv true false).smallObjectSize = true ∧
      (sampleEnv true false).sizeBelow ((sampleEnv true false).getWorldBounds barrel "barrel.nif")
          ⟨barrel.scale, barrel.scale, barrel.scale⟩ (sampleEnv true false).smallObjectSize
        = true ∧
      mapFind 7 s'.mStaticGeometrySmall = none ∧
      (mapFind 7 s'.mStaticGeometry).isSome = true) ∧
    (∃ s', insertMesh (sampleEnv true true) lamp "lamp.nif" (insertBegin lamp Objects.empty)
        = some s' ∧
      (sampleEnv true true).useStaticGeometry = true ∧ hasDoor lamp.typeName = false ∧
      (sampleEnv true true).sizeBelow ((sampleEnv true true).getWorldBounds lamp "lamp.nif")
          ⟨lamp.scale, lamp.scale, lamp.scale⟩ (sampleEnv true true).smallObjectSize = true ∧
      mapFind 7 s'.mStaticGeometrySmall = none ∧ isFolded lamp s' = false) ∧
    (∃ s', ((insertMesh (sampleEnv true true) door "door.nif"
            (insertBegin door Objects.empty)).bind
          (fun s => insertMesh (sampleEnv true true) crate "crate.nif" (insertBegin crate s))).bind
          (fun s => insertMesh (sampleEnv true true) barrel "barrel.nif" (insertBegin barrel s))
        = some s' ∧
      (getDimensions 7 s').1
        ≠ boxUnion ((sampleEnv true true).getWorldBounds crate "crate.nif")
            ((sampleEnv true true).getWorldBounds barrel "barrel.nif")) := by
  refine ⟨⟨_, rfl, ?_, ?_, ?_, ?_, ?_, ?_, ?_⟩, ⟨_, rfl, ?_, ?_, ?_, ?_, ?_⟩, ⟨_, rfl, ?_⟩⟩ <;>
    decide

/-- C8, amended: for every registry state and every two non-door objects of
one cell C for which the size comparison of `insertMesh` comes out below the
threshold (`size < "small object size"`, as the code computes it in single
precision from the world bounds and the scale), with the
limit-small-object-distance setting on and both objects batchable statics
(static type, static batching enabled, handle can batch): inserting both
(`insertBegin` then `insertMesh`, one after the other) folds both into the
small static-geometry group of C, which carries the `RV_StaticsSmall` flag,
and leaves the normal static-geometry map as it was; and when C had no bounds
entry before, `getDimensions(C)` is the union of the world bounds of the two
objects. -/
theorem small_statics_scenario (env : Env) (A B : Ptr) (mA mB : String) (s : Objects)
    (hcell : A.cell = B.cell)
    (hlimit : env.limitSmallObjectDistance = true)
    (hdoorA : hasDoor A.typeName = false) (hdoorB : hasDoor B.typeName = false)
    (hsizeA : env.sizeBelow (env.getWorldBounds A mA) ⟨A.scale, A.scale, A.scale⟩
      env.smallObjectSize = true)
    (hsizeB : env.sizeBelow (env.getWorldBounds B mB) ⟨B.scale, B.scale, B.scale⟩
      env.smallObjectSize = true)
    (hfoldA : folds env A mA = true) (hfoldB : folds env B mB = true) :
    ∃ sA sAB sg, insertMesh env A mA (insertBegin A s) = some sA ∧
      insertMesh env B mB (insertBegin B sA) = some sAB ∧
      mapFind A.cell sAB.mStaticGeometrySmall = some sg ∧
      (A.ref, mA) ∈ sg.queued ∧ (B.ref, mB) ∈ sg.queued ∧
      sg.visibilityFlags = some VisibilityFlags.RV_StaticsSmall ∧
      sAB.mStaticGeometry = s.mStaticGeometry ∧
      (mapFind A.cell s.mBounds = none →
        (getDimensions A.cell sAB).1
          = boxUnion (env.getWorldBounds A mA) (env.getWorldBounds B mB)) := by
  obtain ⟨sA, sg0, h1, a1, a2, _, a4⟩ :=
    insert_small_static env A mA s hdoorA hsizeA hlimit hfoldA
  obtain ⟨sAB, sg1, h2, b1, b2, b3, b4⟩ :=
    insert_small_static env B mB sA hdoorB hsizeB hlimit hfoldB
  have hsg1 : sg1 = configureBatch true A mA sg0 := by
    rw [a2, ← hcell, mapFind_mapSet_self] at b3
    rcases b3 with b3 | b3
    · exact (Option.some.inj b3).symm
    · cases b3.1
  subst hsg1
  refine ⟨sA, sAB, configureBatch true B mB (configureBatch true A mA sg0), h1, h2, ?_, ?_, ?_,
    ?_, ?_, ?_⟩
  · rw [b2, ← hcell, mapFind_mapSet_self]
  · simp [configureBatch]
  · simp [configureBatch]
  · simp [configureBatch]
  · rw [b1, a1]
  · intro hbounds
    rw [← hcell, a4, hbounds] at b4
    rw [getDimensions_fst, b4]
    simp only [Option.getD_none, Option.getD_some, merge_eq_boxUnion, AxisAlignedBox.BOX_NULL]
    cases env.getWorldBounds A mA <;> rfl

/-! ## Cell parent nodes (C10) -/

theorem placed_invariant (env : Env) (h : List Op) :
    ∀ s, run env h = some s → ∀ c,
      (mapFind c s.mCellSceneNodes).isSome = placedSince c h := by
  induction h with
  | nil =>
    intro s hrun c
    simp only [run, Option.some.injEq] at hrun
    subst hrun
    rfl
  | cons op earlier ih =>
    intro s hrun c
    obtain ⟨s0, h0, hstep⟩ := run_cons env op earlier s hrun
    have ih0 := ih s0 h0 c
    cases op with
    | insertBegin ptr =>
      simp only [step, Option.some.injEq] at hstep
      subst hstep
      rw [(insertBegin_frame ptr s0).2.2.2.2.1, cellNode_mCellSceneNodes, ih0]
      simp only [placedSince, eq_comm]
    | insertMesh ptr mesh =>
      simp only [step] at hstep
      rw [(insertMesh_frame env ptr mesh s0 s hstep).2.2.1, ih0]
      simp only [placedSince]
    | deleteObject ptr =>
      simp only [step, Option.some.injEq] at hstep
      subst hstep
      rw [(deleteObject_frame ptr s0).2.2.2]
      simpa [placedSince] using ih0
    | removeCell store =>
      simp only [step, Option.some.injEq] at hstep
      subst hstep
      rw [removeCell_mCellSceneNodes]
      by_cases hc : store = c
      · subst hc
        simp [placedSince, mapFind_mapErase_self]
      · rw [mapFind_mapErase_ne _ _ _ (Ne.symm hc)]
        simpa [placedSince, hc] using ih0
    | buildStaticGeometry cell =>
      simp only [step, Option.some.injEq] at hstep
      subst hstep
      rw [(buildStaticGeometry_frame cell s0).2.2.1]
      simpa [placedSince] using ih0
    | getDimensions cell =>
      simp only [step, Option.some.injEq] at hstep
      subst hstep
      rw [(getDimensions_frame cell s0).2.2.2.1]
      simpa [placedSince] using ih0
    | enableLights =>
      simp only [step, Option.some.injEq] at hstep
      subst hstep
      rw [enableLights, (forwardAll_frame _ s0).2.2.2.1]
      simpa [placedSince] using ih0
    | disableLights =>
      simp only [step, Option.some.injEq] at hstep
      subst hstep
      rw [disableLights, (forwardAll_frame _ s0).2.2.2.1]
      simpa [placedSince] using ih0
    | update dt =>
      simp only [step, Option.some.injEq] at hstep
      subst hstep
      rw [update, (forwardAll_frame _ s0).2.2.2.1]
      simpa [placedSince] using ih0
    | rebuildStaticGeometry =>
      simp only [step, Option.some.injEq] at hstep
      subst hstep
      simpa [placedSince, rebuildStaticGeometry] using ih0
    | updateObjectCell old cur =>
      simp only [step] at hstep
      rw [(updateObjectCell_frame old cur s0 s hstep).2.2.2.2.2, cellNode_mCellSceneNodes, ih0]
      simp only [placedSince, eq_comm]

theorem created_of_placed (env : Env) (c : Nat) (h : List Op)
    (hp : placedSince c h = true) : createdSince env c h = true := by
  induction h with
  | nil => simp [placedSince] at hp
  | cons op earlier ih =>
    cases op with
    | removeCell store =>
      by_cases hc : store = c
      · simp [placedSince, hc] at hp
      · simp only [placedSince, hc, if_false] at hp
        simp only [createdSince, hc, if_false]
        exact ih hp
    | insertBegin ptr =>
      simp only [placedSince, Bool.or_eq_true, decide_eq_true_eq] at hp
      simp only [createdSince, Bool.or_eq_true, decide_eq_true_eq]
      exact hp.imp id ih
    | updateObjectCell old cur =>
      simp only [placedSince, Bool.or_eq_true, decide_eq_true_eq] at hp
      simp only [createdSince, Bool.or_eq_true, decide_eq_true_eq]
      exact hp.imp id ih
    | insertMesh ptr mesh =>
      simp only [placedSince] at hp
      simp only [createdSince, Bool.or_eq_true]
      exact Or.inr (ih hp)
    | deleteObject ptr => simpa [placedSince, createdSince] using ih hp
    | buildStaticGeometry cell => simpa [placedSince, createdSince] using ih hp
    | getDimensions cell => simpa [placedSince, createdSince] using ih hp
    | enableLights => simpa [placedSince, createdSince] using ih hp
    | disableLights => simpa [placedSince, createdSince] using ih hp
    | update dt => simpa [placedSince, createdSince] using ih hp
    | rebuildStaticGeometry => simpa [placedSince, createdSince] using ih hp

theorem placed_of_begun (ptr : Ptr) (h : List Op) (hb : begun ptr h = true) :
    placedSince ptr.cell h = true := by
  induction h with
  | nil => simp [begun] at hb
  | cons op earlier ih =>
    cases op with
    | removeCell store =>
      simp only [begun, Bool.and_eq_true, decide_eq_true_eq] at hb
      simp only [placedSince, hb.1, if_false]
      exact ih hb.2
    | insertBegin q =>
      simp only [begun, Bool.or_eq_true, decide_eq_true_eq] at hb
      simp only [placedSince, Bool.or_eq_true, decide_eq_true_eq]
      rcases hb with hb | hb
      · exact Or.inl (by rw [hb])
      · exact Or.inr (ih hb)
    | updateObjectCell old cur =>
      simp only [begun] at hb
      simp only [placedSince, Bool.or_eq_true]
      exact Or.inr (ih hb)
    | insertMesh q mesh => simpa [placedSince, begun] using ih hb
    | deleteObject q => simpa [placedSince, begun] using ih hb
    | buildStaticGeometry cell => simpa [placedSince, begun] using ih hb
    | getDimensions cell => simpa [placedSince, begun] using ih hb
    | enableLights => simpa [placedSince, begun] using ih hb
    | disableLights => simpa [placedSince, begun] using ih hb
    | update dt => simpa [placedSince, begun] using ih hb
    | rebuildStaticGeometry => simpa [placedSince, begun] using ih hb

theorem placed_of_created (env : Env) (h : List Op) :
    ∀ s, runWith env meshAfterBegin h = some s →
      ∀ c, createdSince env c h = true → placedSince c h = true := by
  induction h with
  | nil => intro s _ c hc; simp [createdSince] at hc
  | cons op earlier ih =>
    intro s hrun c hc
    obtain ⟨s0, h0, hallowed, _⟩ := runWith_cons env meshAfterBegin op earlier s hrun
    have ih0 := ih s0 h0 c
    cases op with
    | removeCell store =>
      by_cases hs : store = c
      · simp [createdSince, hs] at hc
      · simp only [createdSince, hs, if_false] at hc
        simp only [placedSince, hs, if_false]
        exact ih0 hc
    | insertBegin ptr =>
      simp only [createdSince, Bool.or_eq_true, decide_eq_true_eq] at hc
      simp only [placedSince, Bool.or_eq_true, decide_eq_true_eq]
      exact hc.imp id ih0
    | updateObjectCell old cur =>
      simp only [createdSince, Bool.or_eq_true, decide_eq_true_eq] at hc
      simp only [placedSince, Bool.or_eq_true, decide_eq_true_eq]
      exact hc.imp id ih0
    | insertMesh ptr mesh =>
      simp only [createdSince, Bool.or_eq_true, Bool.and_eq_true, decide_eq_true_eq] at hc
      simp only [placedSince]
      rcases hc with hc | hc
      · simp only [meshAfterBegin] at hallowed
        rw [← hc.1]
        exact placed_of_begun ptr earlier hallowed
      · exact ih0 hc
    | deleteObject ptr =>
      simp only [createdSince] at hc
      simp only [placedSince]
      exact ih0 hc
    | buildStaticGeometry cell =>
      simp only [createdSince] at hc
      simp only [placedSince]
      exact ih0 hc
    | getDimensions cell =>
      simp only [createdSince] at hc
      simp only [placedSince]
      exact ih0 hc
    | enableLights =>
      simp only [createdSince] at hc
      simp only [placedSince]
      exact ih0 hc
    | disableLights =>
      simp only [createdSince] at hc
      simp only [placedSince]
      exact ih0 hc
    | update dt =>
      simp only [createdSince] at hc
      simp only [placedSince]
      exact ih0 hc
    | rebuildStaticGeometry =>
      simp only [createdSince] at hc
      simp only [placedSince]
      exact ih0 hc

theorem modify_length (sc : SceneManager) (n : Nat) (f : SceneNode → SceneNode) :
    (sc.modify n f).nodes.length = sc.nodes.length := by
  simp [SceneManager.modify]

theorem insertBegin_nodes_length (ptr : Ptr) (s : Objects) :
    (insertBegin ptr s).scene.nodes.length = (cellNode ptr.cell s).2.scene.nodes.length + 1 := by
  simp only [insertBegin, modify_length]
  simp [SceneManager.createChildSceneNode]

/-- C10 as stated fails: a static-geometry group can be created for a cell that
has no parent node.  First, `insertMesh` is called with a `Ptr` of cell 8 for
a reference that `insertBegin` placed in cell 7: the crate is folded into a
new group of cell 8, which has no entry in the cell-node map.  Second, the
crate is placed in cell 7, moved to cell 8, cell 7 is removed, and
`insertMesh` is then called with the `Ptr` of cell 7: a group is created for
cell 7 after its removal, and cell 7 has no entry in the cell-node map. -/
theorem group_without_cell_node :
    (∃ s, run (sampleEnv true true) [.insertMesh crateIn8 "crate.nif", .insertBegin crate]
        = some s ∧
      createdSince (sampleEnv true true) 8 [.insertMesh crateIn8 "crate.nif", .insertBegin crate]
        = true ∧
      (mapFind 8 s.mStaticGeometrySmall).isSome = true ∧
      mapFind 8 s.mCellSceneNodes = none) ∧
    (∃ s, run (sampleEnv true true)
          [.insertMesh crate "crate.nif", .removeCell 7, .updateObjectCell crate crateIn8,
           .insertBegin crate] = some s ∧
      createdSince (sampleEnv true true) 7
          [.insertMesh crate "crate.nif", .removeCell 7, .updateObjectCell crate crateIn8,
           .insertBegin crate] = true ∧
      (mapFind 7 s.mStaticGeometrySmall).isSome = true ∧
      mapFind 7 s.mCellSceneNodes = none) := by
  refine ⟨⟨_, rfl, ?_, ?_, ?_⟩, ⟨_, rfl, ?_, ?_, ?_⟩⟩ <;> decide

/-- C10, amended: in every state reached from the empty registry by the
registry's calls, a cell has an entry in the cell-node map exactly when, since
the last `removeCell` of that cell, an object node was placed in the cell (by
`insertBegin`, or moved there by `updateObjectCell`); so whenever the entry
exists, an object or a static-geometry group has been created for the cell
since then.  When moreover `insertMesh` is only ever called with a `Ptr` that
was handed to `insertBegin` before and whose cell has not been removed since,
the entry exists exactly when, since the last `removeCell` of the cell, an
object node was placed in it or an object was folded into a static-geometry
group of it.  In particular `insertBegin` on a cell that has a parent node
keeps the cell-node map as it is and creates one node only (the object's),
and `updateObjectCell` creates a parent node for the new cell, under the next
fresh identity, only when the cell has none. -/
theorem cell_node_iff_created (env : Env) :
    (∀ (h : List Op) (s : Objects), run env h = some s →
      ∀ c, (mapFind c s.mCellSceneNodes).isSome = placedSince c h ∧
        ((mapFind c s.mCellSceneNodes).isSome = true → createdSince env c h = true)) ∧
    (∀ (h : List Op) (s : Objects), runWith env meshAfterBegin h = some s →
      ∀ c, (mapFind c s.mCellSceneNodes).isSome = createdSince env c h) ∧
    (∀ (s : Objects) (ptr : Ptr) (n : Nat), mapFind ptr.cell s.mCellSceneNodes = some n →
      (insertBegin ptr s).mCellSceneNodes = s.mCellSceneNodes ∧
      (insertBegin ptr s).scene.nodes.length = s.scene.nodes.length + 1) ∧
    (∀ (s s' : Objects) (old cur : Ptr), updateObjectCell old cur s = some s' →
      (∀ n, mapFind cur.cell s.mCellSceneNodes = some n →
        s'.mCellSceneNodes = s.mCellSceneNodes ∧
        s'.scene.nodes.length = s.scene.nodes.length) ∧
      (mapFind cur.cell s.mCellSceneNodes = none →
        s'.mCellSceneNodes = mapSet cur.cell s.scene.nextId s.mCellSceneNodes ∧
        s'.scene.nodes.length = s.scene.nodes.length + 1)) := by
  refine ⟨?_, ?_, ?_, ?_⟩
  · intro h s hrun c
    have hp := placed_invariant env h s hrun c
    refine ⟨hp, ?_⟩
    intro hsome
    rw [hp] at hsome
    exact created_of_placed env c h hsome
  · intro h s hrun c
    have hp := placed_invariant env h s (run_of_runWith env meshAfterBegin h s hrun) c
    rw [hp]
    cases hc : createdSince env c h with
    | true => exact placed_of_created env h s hrun c hc
    | false =>
      cases hpl : placedSince c h with
      | false => rfl
      | true => rw [created_of_placed env c h hpl] at hc; cases hc
  · intro s ptr n hn
    have hk := cellNode_keeps ptr.cell n s hn
    refine ⟨?_, ?_⟩
    · rw [(insertBegin_frame ptr s).2.2.2.2.1, hk]
    · rw [insertBegin_nodes_length, hk]
  · intro s s' old cur h
    unfold updateObjectCell at h
    cases hb : mapFind cur.ref (cellNode cur.cell s).2.baseNode with
    | none => simp [hb] at h
    | some child =>
      cases hg : (cellNode cur.cell s).2.scene.getNode child with
      | none => simp [hb, hg] at h
      | some node =>
        simp only [hb, hg, Option.some.injEq] at h
        subst h
        refine ⟨?_, ?_⟩
        · intro n hn
          rw [cellNode_keeps cur.cell n s hn]
          simp [SceneManager.addChild, modify_length]
        · intro hnone
          simp [cellNode, hnone, SceneManager.addChild, modify_length,
            SceneManager.createChildSceneNode]

/-! ## Live and batched objects (C9) -/

theorem mapFind_mapSet_ne_none {V : Type} (k k' : Nat) (v : V) (m : List (Nat × V))
    (h : mapFind k' m ≠ none) : mapFind k' (mapSet k v m) ≠ none := by
  by_cases hk : k' = k
  · subst hk; simp [mapFind_mapSet_self]
  · rw [mapFind_mapSet_ne _ _ _ _ hk]; exact h

theorem foldedRefs_congr (s s' : Objects) (h1 : s'.mStaticGeometry = s.mStaticGeometry)
    (h2 : s'.mStaticGeometrySmall = s.mStaticGeometrySmall) : foldedRefs s' = foldedRefs s := by
  simp [foldedRefs, h1, h2]

theorem objFind_some_mem (ptr : Ptr) (m : List (Ptr × ObjectAnimation))
    (h : (objFind ptr m).isSome = true) : ptr.ref ∈ m.map (fun e => e.1.ref) := by
  by_contra hc
  have : objFind ptr m = none := by
    rw [objFind_none_iff]
    intro e he hr
    exact hc (List.mem_map.mpr ⟨e, he, hr⟩)
  rw [this] at h
  simp at h

/-! ### Calls that only remove -/

theorem shrinks_removeCell (store : Nat) (s : Objects) : Shrinks s (removeCell store s) := by
  refine ⟨removeCell_baseNode store s, ?_, ?_⟩
  · intro r hr
    rw [mem_foldedRefs, removeCell_mStaticGeometry, removeCell_mStaticGeometrySmall] at hr
    rw [mem_foldedRefs]
    rcases hr with ⟨e, he, hq⟩ | ⟨e, he, hq⟩
    · exact Or.inl ⟨e, mem_mapErase _ _ _ he, hq⟩
    · exact Or.inr ⟨e, mem_mapErase _ _ _ he, hq⟩
  · simp only [liveRefs, removeCell_mObjects]
    exact (List.filter_sublist _).map _

theorem built_refs_upper (m : List (Nat × StaticGeometry)) (c : Nat) (sg : StaticGeometry)
    (r : Nat) (h0 : mapFind c m = some sg)
    (h : ∃ e ∈ mapSet c { sg with built := true } m, ∃ q ∈ e.2.queued, q.1 = r) :
    ∃ e ∈ m, ∃ q ∈ e.2.queued, q.1 = r := by
  obtain ⟨e, he, q, hq, hr⟩ := h
  rcases mem_mapSet _ _ _ _ he with he1 | he1
  · subst he1
    exact ⟨(c, sg), mapFind_mem _ _ _ h0, q, hq, hr⟩
  · exact ⟨e, he1, q, hq, hr⟩

theorem shrinks_buildStaticGeometry (cell : Nat) (s : Objects) :
    Shrinks s (buildStaticGeometry cell s) := by
  obtain ⟨_, f2, _, f4⟩ := buildStaticGeometry_frame cell s
  refine ⟨f4, ?_, by simp [liveRefs, f2]⟩
  intro r hr
  rw [mem_foldedRefs] at hr ⊢
  unfold buildStaticGeometry at hr
  cases h1 : mapFind cell s.mStaticGeometry with
  | none =>
    cases h2 : mapFind cell s.mStaticGeometrySmall with
    | none => simpa [h1, h2] using hr
    | some sg2 =>
      simp only [h1, h2] at hr
      rcases hr with hr | hr
      · exact Or.inl hr
      · exact Or.inr (built_refs_upper _ _ _ _ h2 hr)
  | some sg1 =>
    cases h2 : mapFind cell s.mStaticGeometrySmall with
    | none =>
      simp only [h1, h2] at hr
      rcases hr with hr | hr
      · exact Or.inl (built_refs_upper _ _ _ _ h1 hr)
      · exact Or.inr hr
    | some sg2 =>
      simp only [h1, h2] at hr
      rcases hr with hr | hr
      · exact Or.inl (built_refs_upper _ _ _ _ h1 hr)
      · exact Or.inr (built_refs_upper _ _ _ _ h2 hr)

theorem shrinks_rebuildStaticGeometry (s : Objects) : Shrinks s (rebuildStaticGeometry s) := by
  refine ⟨rfl, ?_, by simp [liveRefs, rebuildStaticGeometry]⟩
  intro r hr
  have : foldedRefs (rebuildStaticGeometry s) = foldedRefs s := by
    simp [foldedRefs, rebuildStaticGeometry, List.map_map, Function.comp_def]
  rw [this] at hr; exact hr

theorem shrinks_getDimensions (cell : Nat) (s : Objects) : Shrinks s (getDimensions cell s).2 := by
  obtain ⟨f1, f2, f3, _, f5⟩ := getDimensions_frame cell s
  refine ⟨f5, ?_, by simp [liveRefs, f1]⟩
  intro r hr
  rw [foldedRefs_congr _ _ f2 f3] at hr; exact hr

theorem shrinks_forwardAll (call : AnimCall) (s : Objects) : Shrinks s (forwardAll call s) := by
  obtain ⟨_, f2, f3, _, f5⟩ := forwardAll_frame call s
  refine ⟨f5, ?_, by simp [liveRefs, forwardAll, List.map_map, Function.comp_def]⟩
  intro r hr
  rw [foldedRefs_congr _ _ f2 f3] at hr; exact hr

theorem shrinks_updateObjectCell (old cur : Ptr) (s s' : Objects)
    (h : updateObjectCell old cur s = some s') : Shrinks s s' := by
  obtain ⟨_, f2, f3, f4, f5, _⟩ := updateObjectCell_frame old cur s s' h
  refine ⟨f5, ?_, by simp [liveRefs, f2]⟩
  intro r hr
  rw [foldedRefs_congr _ _ f3 f4] at hr; exact hr

theorem live_of_shrinks (s s' : Objects) (hs : LiveConsistent s) (h : Shrinks s s') :
    LiveConsistent s' := by
  obtain ⟨h1, h2⟩ := hs
  obtain ⟨hbase, _, hlive⟩ := h
  refine ⟨?_, h2.sublist hlive⟩
  intro r hr
  rw [hbase]; exact h1 r (hlive.subset hr)

theorem fold_of_shrinks (s s' : Objects) (hs : FoldConsistent s) (h : Shrinks s s') :
    FoldConsistent s' := by
  obtain ⟨h1, h2⟩ := hs
  obtain ⟨hbase, hfold, hlive⟩ := h
  refine ⟨?_, ?_⟩
  · intro r hr hf
    exact h1 r (hlive.subset hr) (hfold r hf)
  · intro r hr
    rw [hbase]; exact h2 r (hfold r hr)

/-! ### insertBegin, insertMesh and deleteObject -/

theorem insertBegin_refs (ptr : Ptr) (s : Objects) :
    liveRefs (insertBegin ptr s) = liveRefs s ∧ foldedRefs (insertBegin ptr s) = foldedRefs s := by
  obtain ⟨_, f2, f3, f4, _, _⟩ := insertBegin_frame ptr s
  exact ⟨by simp [liveRefs, f2], foldedRefs_congr _ _ f3 f4⟩

theorem live_insertBegin (ptr : Ptr) (s : Objects) (hs : LiveConsistent s) :
    LiveConsistent (insertBegin ptr s) := by
  obtain ⟨h1, h2⟩ := hs
  obtain ⟨hl, _⟩ := insertBegin_refs ptr s
  obtain ⟨_, _, _, _, _, n, f6⟩ := insertBegin_frame ptr s
  refine ⟨?_, by rw [hl]; exact h2⟩
  intro r hr
  rw [hl] at hr
  rw [f6]
  exact mapFind_mapSet_ne_none _ _ _ _ (h1 r hr)

theorem fold_insertBegin (ptr : Ptr) (s : Objects) (hs : FoldConsistent s) :
    FoldConsistent (insertBegin ptr s) := by
  obtain ⟨h1, h2⟩ := hs
  obtain ⟨hl, hf⟩ := insertBegin_refs ptr s
  obtain ⟨_, _, _, _, _, n, f6⟩ := insertBegin_frame ptr s
  refine ⟨?_, ?_⟩
  · intro r hr
    rw [hl] at hr
    rw [hf]; exact h1 r hr
  · intro r hr
    rw [hf] at hr
    rw [f6]
    exact mapFind_mapSet_ne_none _ _ _ _ (h2 r hr)

theorem insertMesh_liveRefs (env : Env) (ptr : Ptr) (mesh : String) (s s' : Objects)
    (h : insertMesh env ptr mesh s = some s') :
    liveRefs s' = liveRefs s ∨
      (ptr.ref ∉ liveRefs s ∧ liveRefs s' = liveRefs s ++ [ptr.ref]) := by
  cases hf : folds env ptr mesh with
  | true =>
    exact Or.inl (by simp [liveRefs, (insertMesh_fold env ptr mesh s s' h hf).1])
  | false =>
    obtain ⟨_, _, anim, hobj⟩ := insertMesh_nofold env ptr mesh s s' h hf
    cases hfind : objFind ptr s.mObjects with
    | some a => exact Or.inl (by simp [liveRefs, hobj, objInsert, hfind])
    | none =>
      refine Or.inr ⟨?_, by simp [liveRefs, hobj, objInsert, hfind]⟩
      intro hm
      simp only [liveRefs, List.mem_map] at hm
      obtain ⟨e, he, hr⟩ := hm
      exact (objFind_none_iff ptr s.mObjects).mp hfind e he hr

theorem insertMesh_foldedRefs_upper (env : Env) (ptr : Ptr) (mesh : String) (s s' : Objects)
    (h : insertMesh env ptr mesh s = some s') :
    ∀ r ∈ foldedRefs s', r ∈ foldedRefs s ∨ r = ptr.ref := by
  intro r hr
  cases hf : folds env ptr mesh with
  | true => exact ((insertMesh_foldedRefs env ptr mesh s s' h).1 hf).2 r hr
  | false =>
    rw [(insertMesh_foldedRefs env ptr mesh s s' h).2 hf] at hr
    exact Or.inl hr

theorem live_insertMesh (env : Env) (ptr : Ptr) (mesh : String) (s s' : Objects)
    (hs : LiveConsistent s) (h : insertMesh env ptr mesh s = some s') : LiveConsistent s' := by
  obtain ⟨h1, h2⟩ := hs
  obtain ⟨hb, _, _, _⟩ := insertMesh_frame env ptr mesh s s' h
  obtain ⟨n, node, hbn, _⟩ := insertMesh_base env ptr mesh s s' h
  have hbase : mapFind ptr.ref s.baseNode ≠ none := by rw [hbn]; simp
  rcases insertMesh_liveRefs env ptr mesh s s' h with hl | ⟨hnl, hl⟩
  · refine ⟨?_, by rw [hl]; exact h2⟩
    intro r hr
    rw [hl] at hr
    rw [hb]; exact h1 r hr
  · refine ⟨?_, ?_⟩
    · intro r hr
      rw [hl, List.mem_append, List.mem_singleton] at hr
      rw [hb]
      rcases hr with hr | hr
      · exact h1 r hr
      · subst hr; exact hbase
    · rw [hl]
      exact List.Nodup.append h2 (List.nodup_singleton _)
        (by
          intro a ha hb2
          rw [List.mem_singleton] at hb2
          subst hb2
          exact hnl ha)

theorem fold_insertMesh (env : Env) (ptr : Ptr) (mesh : String) (s s' : Objects)
    (hs : FoldConsistent s) (hnl : ptr.ref ∉ liveRefs s) (hnf : ptr.ref ∉ foldedRefs s)
    (h : insertMesh env ptr mesh s = some s') : FoldConsistent s' := by
  obtain ⟨h1, h2⟩ := hs
  obtain ⟨hb, _, _, _⟩ := insertMesh_frame env ptr mesh s s' h
  obtain ⟨n, node, hbn, _⟩ := insertMesh_base env ptr mesh s s' h
  have hbase : mapFind ptr.ref s.baseNode ≠ none := by rw [hbn]; simp
  have hup := insertMesh_foldedRefs_upper env ptr mesh s s' h
  refine ⟨?_, ?_⟩
  · intro r hr hf
    cases hfo : folds env ptr mesh with
    | true =>
      have hl : liveRefs s' = liveRefs s := by
        simp [liveRefs, (insertMesh_fold env ptr mesh s s' h hfo).1]
      rw [hl] at hr
      rcases hup r hf with h4 | h4
      · exact h1 r hr h4
      · subst h4; exact hnl hr
    | false =>
      rw [(insertMesh_foldedRefs env ptr mesh s s' h).2 hfo] at hf
      rcases insertMesh_liveRefs env ptr mesh s s' h with hl | ⟨_, hl⟩
      · rw [hl] at hr; exact h1 r hr hf
      · rw [hl, List.mem_append, List.mem_singleton] at hr
        rcases hr with hr | hr
        · exact h1 r hr hf
        · subst hr; exact hnf hf
  · intro r hr
    rw [hb]
    rcases hup r hr with h4 | h4
    · exact h2 r h4
    · subst h4; exact hbase

theorem deleteObject_refs (ptr : Ptr) (s : Objects) :
    (liveRefs (deleteObject ptr s).2).Sublist (liveRefs s) ∧
      foldedRefs (deleteObject ptr s).2 = foldedRefs s := by
  obtain ⟨_, f2, f3, _⟩ := deleteObject_frame ptr s
  refine ⟨?_, foldedRefs_congr _ _ f2 f3⟩
  unfold deleteObject
  cases hb : mapFind ptr.ref s.baseNode with
  | none => exact List.Sublist.refl _
  | some base =>
    cases ho : objFind ptr s.mObjects with
    | none => exact List.Sublist.refl _
    | some anim =>
      simp only [liveRefs, objErase]
      exact (List.filter_sublist _).map _

theorem live_deleteObject (ptr : Ptr) (s : Objects) (hs : LiveConsistent s) :
    LiveConsistent (deleteObject ptr s).2 := by
  unfold deleteObject
  cases hb : mapFind ptr.ref s.baseNode with
  | none => exact hs
  | some base =>
    cases ho : objFind ptr s.mObjects with
    | none => exact hs
    | some anim =>
      obtain ⟨h1, h2⟩ := hs
      have hsub : (List.map (fun e : Ptr × ObjectAnimation => e.1.ref)
          (objErase ptr s.mObjects)).Sublist (liveRefs s) := by
        simp only [liveRefs, objErase]
        exact (List.filter_sublist _).map _
      refine ⟨?_, h2.sublist hsub⟩
      intro r hr
      simp only [liveRefs, objErase, List.mem_map, List.mem_filter, decide_eq_true_eq] at hr
      obtain ⟨e, ⟨he, hne⟩, rfl⟩ := hr
      have hin : e.1.ref ∈ liveRefs s := List.mem_map.mpr ⟨e, he, rfl⟩
      show mapFind e.1.ref (mapErase ptr.ref s.baseNode) ≠ none
      rw [mapFind_mapErase_ne _ _ _ hne]
      exact h1 _ hin

theorem fold_deleteObject (ptr : Ptr) (s : Objects) (hs : FoldConsistent s) :
    FoldConsistent (deleteObject ptr s).2 := by
  unfold deleteObject
  cases hb : mapFind ptr.ref s.baseNode with
  | none => exact hs
  | some base =>
    cases ho : objFind ptr s.mObjects with
    | none => exact hs
    | some anim =>
      obtain ⟨h1, h2⟩ := hs
      have hlive : ptr.ref ∈ liveRefs s := objFind_some_mem ptr s.mObjects (by rw [ho]; rfl)
      refine ⟨?_, ?_⟩
      · intro r hr hf
        simp only [liveRefs, objErase, List.mem_map, List.mem_filter, decide_eq_true_eq] at hr
        obtain ⟨e, ⟨he, _⟩, rfl⟩ := hr
        exact h1 _ (List.mem_map.mpr ⟨e, he, rfl⟩) hf
      · intro r hr
        have hr2 : r ∈ foldedRefs s := hr
        have hne : r ≠ ptr.ref := by
          intro he
          subst he
          exact h1 _ hlive hr2
        show mapFind r (mapErase ptr.ref s.baseNode) ≠ none
        rw [mapFind_mapErase_ne _ _ _ hne]
        exact h2 r hr2

/-! ### The invariants along a history -/

theorem live_run (env : Env) (h : List Op) : ∀ s, run env h = some s → LiveConsistent s := by
  induction h with
  | nil =>
    intro s hrun
    simp only [run, Option.some.injEq] at hrun
    subst hrun
    simp [LiveConsistent, liveRefs, Objects.empty]
  | cons op earlier ih =>
    intro s hrun
    obtain ⟨s0, h0, hstep⟩ := run_cons env op earlier s hrun
    have ih0 := ih s0 h0
    cases op with
    | insertBegin ptr =>
      simp only [step, Option.some.injEq] at hstep
      subst hstep; exact live_insertBegin ptr s0 ih0
    | insertMesh ptr mesh => exact live_insertMesh env ptr mesh s0 s ih0 hstep
    | deleteObject ptr =>
      simp only [step, Option.some.injEq] at hstep
      subst hstep; exact live_deleteObject ptr s0 ih0
    | removeCell store =>
      simp only [step, Option.some.injEq] at hstep
      subst hstep; exact live_of_shrinks _ _ ih0 (shrinks_removeCell store s0)
    | buildStaticGeometry cell =>
      simp only [step, Option.some.injEq] at hstep
      subst hstep; exact live_of_shrinks _ _ ih0 (shrinks_buildStaticGeometry cell s0)
    | getDimensions cell =>
      simp only [step, Option.some.injEq] at hstep
      subst hstep; exact live_of_shrinks _ _ ih0 (shrinks_getDimensions cell s0)
    | enableLights =>
      simp only [step, Option.some.injEq] at hstep
      subst hstep; exact live_of_shrinks _ _ ih0 (shrinks_forwardAll _ s0)
    | disableLights =>
      simp only [step, Option.some.injEq] at hstep
      subst hstep; exact live_of_shrinks _ _ ih0 (shrinks_forwardAll _ s0)
    | update dt =>
      simp only [step, Option.some.injEq] at hstep
      subst hstep; exact live_of_shrinks _ _ ih0 (shrinks_forwardAll _ s0)
    | rebuildStaticGeometry =>
      simp only [step, Option.some.injEq] at hstep
      subst hstep; exact live_of_shrinks _ _ ih0 (shrinks_rebuildStaticGeometry s0)
    | updateObjectCell old cur =>
      exact live_of_shrinks _ _ ih0 (shrinks_updateObjectCell old cur s0 s hstep)

theorem await_of_shrinks (s s' : Objects) (r : Nat) (h : Shrinks s s')
    (hr : r ∉ liveRefs s ∧ r ∉ foldedRefs s) : r ∉ liveRefs s' ∧ r ∉ foldedRefs s' :=
  ⟨fun hl => hr.1 (h.2.2.subset hl), fun hf => hr.2 (h.2.1 r hf)⟩

theorem usage_run (env : Env) (h : List Op) :
    ∀ s, runWith env oneMeshPerInsertion h = some s →
      FoldConsistent s ∧
      ∀ r, awaitingMesh r h = true → r ∉ liveRefs s ∧ r ∉ foldedRefs s := by
  induction h with
  | nil =>
    intro s hrun
    simp only [runWith, Option.some.injEq] at hrun
    subst hrun
    simp [FoldConsistent, liveRefs, foldedRefs, Objects.empty, awaitingMesh]
  | cons op earlier ih =>
    intro s hrun
    obtain ⟨s0, h0, hallowed, hstep⟩ := runWith_cons env oneMeshPerInsertion op earlier s hrun
    obtain ⟨hfc, haw⟩ := ih s0 h0
    have hlc := live_run env earlier s0 (run_of_runWith env oneMeshPerInsertion earlier s0 h0)
    cases op with
    | insertBegin ptr =>
      simp only [step, Option.some.injEq] at hstep
      subst hstep
      refine ⟨fold_insertBegin ptr s0 hfc, ?_⟩
      intro r hr
      obtain ⟨hl, hf⟩ := insertBegin_refs ptr s0
      rw [hl, hf]
      simp only [awaitingMesh, Bool.or_eq_true, decide_eq_true_eq] at hr
      rcases hr with hr | hr
      · subst hr
        simp only [oneMeshPerInsertion, Option.isNone_iff_eq_none] at hallowed
        exact ⟨fun hm => hlc.1 _ hm hallowed, fun hm => hfc.2 _ hm hallowed⟩
      · exact haw r hr
    | insertMesh ptr mesh =>
      simp only [step] at hstep
      simp only [oneMeshPerInsertion] at hallowed
      obtain ⟨hnl, hnf⟩ := haw ptr.ref hallowed
      refine ⟨fold_insertMesh env ptr mesh s0 s hfc hnl hnf hstep, ?_⟩
      intro r hr
      simp only [awaitingMesh, Bool.and_eq_true, decide_eq_true_eq] at hr
      obtain ⟨h1, h2⟩ := haw r hr.2
      refine ⟨?_, ?_⟩
      · intro hm
        rcases insertMesh_liveRefs env ptr mesh s0 s hstep with hl | ⟨_, hl⟩
        · rw [hl] at hm; exact h1 hm
        · rw [hl, List.mem_append, List.mem_singleton] at hm
          rcases hm with hm | hm
          · exact h1 hm
          · exact hr.1 hm.symm
      · intro hm
        rcases insertMesh_foldedRefs_upper env ptr mesh s0 s hstep r hm with h4 | h4
        · exact h2 h4
        · exact hr.1 h4.symm
    | deleteObject ptr =>
      simp only [step, Option.some.injEq] at hstep
      subst hstep
      refine ⟨fold_deleteObject ptr s0 hfc, ?_⟩
      intro r hr
      simp only [awaitingMesh] at hr
      obtain ⟨h1, h2⟩ := haw r hr
      obtain ⟨hl, hf⟩ := deleteObject_refs ptr s0
      exact ⟨fun hm => h1 (hl.subset hm), by rw [hf]; exact h2⟩
    | removeCell store =>
      simp only [step, Option.some.injEq] at hstep
      subst hstep
      have hsh := shrinks_removeCell store s0
      exact ⟨fold_of_shrinks _ _ hfc hsh, fun r hr => await_of_shrinks _ _ r hsh (haw r hr)⟩
    | buildStaticGeometry cell =>
      simp only [step, Option.some.injEq] at hstep
      subst hstep
      have hsh := shrinks_buildStaticGeometry cell s0
      exact ⟨fold_of_shrinks _ _ hfc hsh, fun r hr => await_of_shrinks _ _ r hsh (haw r hr)⟩
    | getDimensions cell =>
      simp only [step, Option.some.injEq] at hstep
      subst hstep
      have hsh := shrinks_getDimensions cell s0
      exact ⟨fold_of_shrinks _ _ hfc hsh, fun r hr => await_of_shrinks _ _ r hsh (haw r hr)⟩
    | enableLights =>
      simp only [step, Option.some.injEq] at hstep
      subst hstep
      have hsh := shrinks_forwardAll (.enableLights true) s0
      exact ⟨fold_of_shrinks _ _ hfc hsh, fun r hr => await_of_shrinks _ _ r hsh (haw r hr)⟩
    | disableLights =>
      simp only [step, Option.some.injEq] at hstep
      subst hstep
      have hsh := shrinks_forwardAll (.enableLights false) s0
      exact ⟨fold_of_shrinks _ _ hfc hsh, fun r hr => await_of_shrinks _ _ r hsh (haw r hr)⟩
    | update dt =>
      simp only [step, Option.some.injEq] at hstep
      subst hstep
      have hsh := shrinks_forwardAll (.runAnimation dt) s0
      exact ⟨fold_of_shrinks _ _ hfc hsh, fun r hr => await_of_shrinks _ _ r hsh (haw r hr)⟩
    | rebuildStaticGeometry =>
      simp only [step, Option.some.injEq] at hstep
      subst hstep
      have hsh := shrinks_rebuildStaticGeometry s0
      exact ⟨fold_of_shrinks _ _ hfc hsh, fun r hr => await_of_shrinks _ _ r hsh (haw r hr)⟩
    | updateObjectCell old cur =>
      have hsh := shrinks_updateObjectCell old cur s0 s hstep
      exact ⟨fold_of_shrinks _ _ hfc hsh, fun r hr => await_of_shrinks _ _ r hsh (haw r hr)⟩

theorem objCount_eq_count (ptr : Ptr) (m : List (Ptr × ObjectAnimation)) :
    objCount ptr m = (m.map (fun e => e.1.ref)).count ptr.ref := by
  induction m with
  | nil => rfl
  | cons e rest ih =>
    simp only [objCount] at ih
    by_cases h : e.1.ref = ptr.ref
    · simp [objCount, List.countP_cons, List.count_cons, h, ih]
    · simp [objCount, List.countP_cons, List.count_cons, h, ih]

/-- C9 as stated fails.  An object with a non-null base node can be in neither
structure: after `insertBegin` alone, and after `insertBegin`, `insertMesh`
and `removeCell` of its cell (the base-node reference stays set).  And it can
be in both: when `insertMesh` is called twice on it (first with the
unbatchable mesh `a.nif`, then with the batchable `b.nif`), or when it is
folded and then handed to `insertBegin` and `insertMesh` again. -/
theorem base_node_neither_or_both :
    (∃ s, run (sampleEnv true true) [.insertBegin crate] = some s ∧
      (mapFind crate.ref s.baseNode).isSome = true ∧
      objCount crate s.mObjects = 0 ∧ isFolded crate s = false) ∧
    (∃ s, run (sampleEnv true true)
        [.removeCell 7, .insertMesh lamp "lamp.nif", .insertBegin lamp] = some s ∧
      (mapFind lamp.ref s.baseNode).isSome = true ∧
      objCount lamp s.mObjects = 0 ∧ isFolded lamp s = false) ∧
    (∃ s, run meshEnv [.insertMesh crate "b.nif", .insertMesh crate "a.nif", .insertBegin crate]
        = some s ∧
      (mapFind crate.ref s.baseNode).isSome = true ∧
      objCount crate s.mObjects = 1 ∧ isFolded crate s = true) ∧
    (∃ s, run meshEnv
        [.insertMesh crate "a.nif", .insertBegin crate, .insertMesh crate "b.nif",
         .insertBegin crate] = some s ∧
      (mapFind crate.ref s.baseNode).isSome = true ∧
      objCount crate s.mObjects = 1 ∧ isFolded crate s = true) := by
  refine ⟨⟨_, rfl, ?_, ?_, ?_⟩, ⟨_, rfl, ?_, ?_, ?_⟩, ⟨_, rfl, ?_, ?_, ?_⟩,
    ⟨_, rfl, ?_, ?_, ?_⟩⟩ <;> decide

/-- C9, amended: in every state reached from the empty registry by the
registry's calls, every object that has an entry in the live-objects map has
a non-null base node and exactly one entry.  When moreover each object is
given one mesh per insertion (`insertBegin` is called only on an object whose
base node is null, and `insertMesh` only on an object that was handed to
`insertBegin` and has not been given a mesh since), an object with an entry in
the live-objects map is in no static-geometry batch, and an object that is
in a static-geometry batch has a non-null base node and no entry in the
live-objects map: no object is both live and batched. -/
theorem live_and_folded_exclusive (env : Env) :
    (∀ (h : List Op) (s : Objects), run env h = some s →
      ∀ ptr : Ptr, (objFind ptr s.mObjects).isSome = true →
        (mapFind ptr.ref s.baseNode).isSome = true ∧ objCount ptr s.mObjects = 1) ∧
    (∀ (h : List Op) (s : Objects), runWith env oneMeshPerInsertion h = some s →
      ∀ ptr : Ptr,
        ((objFind ptr s.mObjects).isSome = true → isFolded ptr s = false) ∧
        (isFolded ptr s = true →
          (mapFind ptr.ref s.baseNode).isSome = true ∧ objCount ptr s.mObjects = 0)) := by
  constructor
  · intro h s hrun ptr hlive
    obtain ⟨h1, h2⟩ := live_run env h s hrun
    have hm : ptr.ref ∈ liveRefs s := objFind_some_mem ptr s.mObjects hlive
    refine ⟨Option.isSome_iff_ne_none.mpr (h1 _ hm), ?_⟩
    rw [objCount_eq_count]
    exact List.count_eq_one_of_mem h2 hm
  · intro h s hrun ptr
    obtain ⟨⟨h1, h2⟩, _⟩ := usage_run env h s hrun
    constructor
    · intro hlive
      have hm : ptr.ref ∈ liveRefs s := objFind_some_mem ptr s.mObjects hlive
      cases hf : isFolded ptr s with
      | false => rfl
      | true => exact absurd ((isFolded_iff ptr s).mp hf) (h1 _ hm)
    · intro hf
      have hm := (isFolded_iff ptr s).mp hf
      refine ⟨Option.isSome_iff_ne_none.mpr (h2 _ hm), ?_⟩
      rw [objCount_eq_count]
      apply List.count_eq_zero_of_not_mem
      intro hl
      exact h1 _ hl hm

/-! ## The theorems at sample inputs -/

/-- C1, amended, at a sample input: the lamp, which is not folded. -/
theorem deleteObject_after_insert_witness :
    folds (sampleEnv true true) lamp "lamp.nif" = false ∧
    ∃ s2, insertMesh (sampleEnv true true) lamp "lamp.nif" (insertBegin lamp Objects.empty)
        = some s2 ∧
      (deleteObject lamp s2).1 = true ∧
      mapFind lamp.ref (deleteObject lamp s2).2.baseNode = none ∧
      objFind lamp (deleteObject lamp s2).2.mObjects = none ∧
      deleteObject lamp (deleteObject lamp s2).2 = (true, (deleteObject lamp s2).2) :=
  ⟨by decide,
    deleteObject_after_insert (sampleEnv true true) lamp "lamp.nif" Objects.empty (by decide)⟩

/-- C6 at a sample input: the door, under settings that batch doors. -/
theorem door_never_small_witness :
    hasDoor door.typeName = true ∧
    isSmall doorEnv door (doorEnv.getWorldBounds door "door.nif") ⟨door.scale, door.scale, door.scale⟩
      = false ∧
    insertMesh doorEnv door "door.nif" (insertBegin door Objects.empty) = some doorFolded ∧
    folds doorEnv door "door.nif" = true ∧
    doorFolded.mStaticGeometrySmall = (insertBegin door Objects.empty).mStaticGeometrySmall ∧
    ∃ sg, mapFind door.cell doorFolded.mStaticGeometry = some sg ∧
      sg.visibilityFlags = some VisibilityFlags.RV_Statics ∧
      (door.ref, "door.nif") ∈ sg.queued :=
  ⟨by decide, (door_never_small doorEnv door (by decide)).1 _ _, by decide, by decide,
    ((door_never_small doorEnv door (by decide)).2 "door.nif" (insertBegin door Objects.empty)
      doorFolded (by decide)).1,
    ((door_never_small doorEnv door (by decide)).2 "door.nif" (insertBegin door Objects.empty)
      doorFolded (by decide)).2 (by decide)⟩

/-- C7, amended, at two sample inputs: the crate, which is folded, and the
lamp, which is not. -/
theorem insertMesh_live_or_folded_witness :
    (insertMesh (sampleEnv true true) crate "crate.nif" (insertBegin crate Objects.empty)
        = some crateFolded ∧
      folds (sampleEnv true true) crate "crate.nif" = true ∧
      objFind crate (insertBegin crate Objects.empty).mObjects = none ∧
      isFolded crate crateFolded = true ∧
      crateFolded.mObjects = (insertBegin crate Objects.empty).mObjects ∧
      objCount crate crateFolded.mObjects = 0 ∧
      (∀ dt, ∀ q ∈ visited (update dt crateFolded), q.ref ≠ crate.ref) ∧
      (∀ q ∈ visited (enableLights crateFolded), q.ref ≠ crate.ref) ∧
      (∀ q ∈ visited (disableLights crateFolded), q.ref ≠ crate.ref)) ∧
    (insertMesh (sampleEnv true true) lamp "lamp.nif" (insertBegin lamp Objects.empty)
        = some lampLive ∧
      folds (sampleEnv true true) lamp "lamp.nif" = false ∧
      objCount lamp (insertBegin lamp Objects.empty).mObjects ≤ 1 ∧
      objCount lamp lampLive.mObjects = 1) := by
  have hc := (insertMesh_live_or_folded (sampleEnv true true) crate "crate.nif"
    (insertBegin crate Objects.empty) crateFolded (by decide)).1 (by decide)
  have hl := (insertMesh_live_or_folded (sampleEnv true true) lamp "lamp.nif"
    (insertBegin lamp Objects.empty) lampLive (by decide)).2 (by decide) (by decide)
  exact ⟨⟨by decide, by decide, by decide, hc.1, hc.2.1, hc.2.2 (by decide)⟩,
    ⟨by decide, by decide, by decide, hl⟩⟩

/-- C5 at sample inputs: the crate and the barrel in either order, and the
history `lampThenCrate`. -/
theorem bounds_are_union_witness :
    (crate.cell = barrel.cell ∧ mapFind crate.cell bothBegun.mBounds = none ∧
      mapFind crate.ref bothBegun.baseNode = some 2 ∧
      (bothBegun.scene.getNode 2).isSome = true ∧
      mapFind barrel.ref bothBegun.baseNode = some 3 ∧
      (bothBegun.scene.getNode 3).isSome = true ∧
      ∃ sAB sBA,
        (insertMesh (sampleEnv false true) crate "crate.nif" bothBegun).bind
            (insertMesh (sampleEnv false true) barrel "barrel.nif") = some sAB ∧
        (insertMesh (sampleEnv false true) barrel "barrel.nif" bothBegun).bind
            (insertMesh (sampleEnv false true) crate "crate.nif") = some sBA ∧
        (getDimensions crate.cell sAB).1 = (getDimensions crate.cell sBA).1 ∧
        (getDimensions crate.cell sAB).1
          = boxUnion ((sampleEnv false true).getWorldBounds crate "crate.nif")
              ((sampleEnv false true).getWorldBounds barrel "barrel.nif")) ∧
    (run (sampleEnv true true) lampThenCrate = some afterLampThenCrate ∧
      (getDimensions 7 afterLampThenCrate).1
        = unionAll (insertedSince (sampleEnv true true) 7 lampThenCrate)) := by
  refine ⟨⟨by decide, by decide, by decide, by decide, by decide, by decide, ?_⟩,
    ⟨by decide, (bounds_are_union (sampleEnv true true)).2 lampThenCrate afterLampThenCrate
      (by decide) 7⟩⟩
  obtain ⟨sAB, sBA, h1, h2, h3, h4, _⟩ :=
    (bounds_are_union (sampleEnv false true)).1 crate barrel "crate.nif" "barrel.nif" bothBegun
      2 3
      ⟨2, some 1, ⟨0, 0, 0⟩, ⟨⟨1, 0⟩, ⟨1, 0⟩, ⟨1, 0⟩⟩,
        [(0, .UNIT_X), (0, .UNIT_Y), (0, .UNIT_Z)]⟩
      ⟨3, some 1, ⟨5, -5, 20⟩, ⟨⟨2, 0⟩, ⟨2, 0⟩, ⟨2, 0⟩⟩,
        [(0, .UNIT_X), (0, .UNIT_Y), (0, .UNIT_Z)]⟩
      (by decide) (by decide) (by decide) (by decide) (by decide) (by decide)
  exact ⟨sAB, sBA, h1, h2, h3, h4⟩

/-- C8, amended, at a sample input: the crate and the barrel, inserted into the
empty registry. -/
theorem small_statics_scenario_witness :
    crate.cell = barrel.cell ∧
    (sampleEnv true true).limitSmallObjectDistance = true ∧
    hasDoor crate.typeName = false ∧ hasDoor barrel.typeName = false ∧
    (sampleEnv true true).sizeBelow ((sampleEnv true true).getWorldBounds crate "crate.nif")
        ⟨crate.scale, crate.scale, crate.scale⟩ (sampleEnv true true).smallObjectSize = true ∧
    (sampleEnv true true).sizeBelow ((sampleEnv true true).getWorldBounds barrel "barrel.nif")
        ⟨barrel.scale, barrel.scale, barrel.scale⟩ (sampleEnv true true).smallObjectSize = true ∧
    folds (sampleEnv true true) crate "crate.nif" = true ∧
    folds (sampleEnv true true) barrel "barrel.nif" = true ∧
    mapFind crate.cell Objects.empty.mBounds = none ∧
    ∃ sA sAB sg,
      insertMesh (sampleEnv true true) crate "crate.nif" (insertBegin crate Objects.empty)
        = some sA ∧
      insertMesh (sampleEnv true true) barrel "barrel.nif" (insertBegin barrel sA) = some sAB ∧
      mapFind crate.cell sAB.mStaticGeometrySmall = some sg ∧
      (crate.ref, "crate.nif") ∈ sg.queued ∧ (barrel.ref, "barrel.nif") ∈ sg.queued ∧
      sg.visibilityFlags = some VisibilityFlags.RV_StaticsSmall ∧
      sAB.mStaticGeometry = Objects.empty.mStaticGeometry ∧
      (getDimensions crate.cell sAB).1
        = boxUnion ((sampleEnv true true).getWorldBounds crate "crate.nif")
            ((sampleEnv true true).getWorldBounds barrel "barrel.nif") := by
  obtain ⟨sA, sAB, sg, h1, h2, h3, h4, h5, h6, h7, h8⟩ :=
    small_statics_scenario (sampleEnv true true) crate barrel "crate.nif" "barrel.nif"
      Objects.empty (by decide) (by decide) (by decide) (by decide) (by decide)
      (by decide) (by decide) (by decide)
  exact ⟨by decide, by decide, by decide, by decide, by decide, by decide, by decide,
    by decide, by decide, sA, sAB, sg, h1, h2, h3, h4, h5, h6, h7, h8 (by decide)⟩

/-- C9, amended, at a sample input: after `lampThenCrate`, which gives each
object one mesh per insertion, the lamp is live and the crate is folded. -/
theorem live_and_folded_exclusive_witness :
    run (sampleEnv true true) lampThenCrate = some afterLampThenCrate ∧
    runWith (sampleEnv true true) oneMeshPerInsertion lampThenCrate = some afterLampThenCrate ∧
    ((objFind lamp afterLampThenCrate.mObjects).isSome = true ∧
      ((mapFind lamp.ref afterLampThenCrate.baseNode).isSome = true ∧
        objCount lamp afterLampThenCrate.mObjects = 1) ∧
      isFolded lamp afterLampThenCrate = false) ∧
    (isFolded crate afterLampThenCrate = true ∧
      (mapFind crate.ref afterLampThenCrate.baseNode).isSome = true ∧
      objCount crate afterLampThenCrate.mObjects = 0) :=
  ⟨by decide, by decide,
    ⟨by decide,
      (live_and_folded_exclusive (sampleEnv true true)).1 lampThenCrate afterLampThenCrate
        (by decide) lamp (by decide),
      ((live_and_folded_exclusive (sampleEnv true true)).2 lampThenCrate afterLampThenCrate
        (by decide) lamp).1 (by decide)⟩,
    ⟨by decide,
      ((live_and_folded_exclusive (sampleEnv true true)).2 lampThenCrate afterLampThenCrate
        (by decide) crate).2 (by decide)⟩⟩

/-- C10, amended, at a sample input: the state after `lampThenCrate`, in which
every `insertMesh` follows the `insertBegin` of its `Ptr`; a further
`insertBegin` into cell 7; and a move of the crate to cell 8. -/
theorem cell_node_iff_created_witness :
    run (sampleEnv true true) lampThenCrate = some afterLampThenCrate ∧
    runWith (sampleEnv true true) meshAfterBegin lampThenCrate = some afterLampThenCrate ∧
    (∀ c, (mapFind c afterLampThenCrate.mCellSceneNodes).isSome = placedSince c lampThenCrate ∧
      ((mapFind c afterLampThenCrate.mCellSceneNodes).isSome = true →
        createdSince (sampleEnv true true) c lampThenCrate = true)) ∧
    (∀ c, (mapFind c afterLampThenCrate.mCellSceneNodes).isSome
      = createdSince (sampleEnv true true) c lampThenCrate) ∧
    (mapFind barrel.cell afterLampThenCrate.mCellSceneNodes = some 1 ∧
      (insertBegin barrel afterLampThenCrate).mCellSceneNodes
        = afterLampThenCrate.mCellSceneNodes ∧
      (insertBegin barrel afterLampThenCrate).scene.nodes.length
        = afterLampThenCrate.scene.nodes.length + 1) ∧
    (updateObjectCell crate crateIn8 afterLampThenCrate = some crateMoved ∧
      mapFind crateIn8.cell afterLampThenCrate.mCellSceneNodes = none ∧
      crateMoved.mCellSceneNodes
        = mapSet crateIn8.cell afterLampThenCrate.scene.nextId
            afterLampThenCrate.mCellSceneNodes ∧
      crateMoved.scene.nodes.length = afterLampThenCrate.scene.nodes.length + 1) :=
  ⟨by decide, by decide,
    (cell_node_iff_created (sampleEnv true true)).1 lampThenCrate afterLampThenCrate (by decide),
    (cell_node_iff_created (sampleEnv true true)).2.1 lampThenCrate afterLampThenCrate
      (by decide),
    ⟨by decide,
      (cell_node_iff_created (sampleEnv true true)).2.2.1 afterLampThenCrate barrel 1
        (by decide)⟩,
    ⟨by decide, by decide,
      ((cell_node_iff_created (sampleEnv true true)).2.2.2 afterLampThenCrate crateMoved crate
        crateIn8 (by decide)).2 (by decide)⟩⟩

end MWRender
